import Mathlib

/-!
Verification development for the AgentAuth authorization service.

Shallow embedding of the decision pipeline of the repository:
  app/services/token_service.py   (delegation-token issue / verify)
  app/services/auth_service.py    (AuthService.authorize)
  app/services/verify_service.py  (VerifyService.verify, consent-signature check)
  app/services/velocity_service.py (VelocityRules / VelocityService)
  app/middleware/idempotency.py   (IdempotencyMiddleware.dispatch)
  app/services/audit_service.py   (ComplianceAuditService log / verify_integrity)

Modelling conventions:
  - monetary amounts are rationals (Python floats in the source; no claim
    settled here depends on binary rounding of the concrete literals used);
  - instants are integers (seconds since epoch), with the source's strict
    and non-strict comparisons kept as written;
  - human-readable `message` strings of responses are not modelled (no
    claim mentions them); stable reason codes are modelled exactly;
  - JWT signature/issuer verification is modelled by a `sig_ok` flag and
    an `iss` field on the token; tokens produced by the issuance path have
    `sig_ok = true` as they are signed with the service's own key;
  - cryptographic digests (SHA-256, HMAC-SHA-256, Ed25519) are modelled as
    injective constructors or as function parameters: collisions are
    assumed not to occur, which is the standard idealization.
-/

namespace AgentAuth

/-! ### String literals of the source

Reason codes, decisions and other literals from the Python sources, bound
to names so they can be passed as arguments. -/

def sALLOW : String := "ALLOW"
def sDENY : String := "DENY"
def sAgentauth : String := "agentauth"
def rTokenExpired : String := "token_expired"
def rInvalidToken : String := "invalid_token"
def rAmountExceeded : String := "amount_exceeded"
def rCurrencyMismatch : String := "currency_mismatch"
def rMerchantNotAllowed : String := "merchant_not_allowed"
def rCategoryNotAllowed : String := "category_not_allowed"
def rConsentInvalid : String := "consent_invalid"
def eAlreadyUsed : String := "authorization_already_used"
def eExpired : String := "authorization_expired"
def eAmountMismatch : String := "amount_mismatch"
def eCurrencyMismatch : String := "currency_mismatch"
def eConsentNotFound : String := "consent_not_found"
def eNotFound : String := "authorization_not_found"
def sSdkGenerated : String := "sdk_generated"
def sHmacTag : String := "hmac_"
def sColon : String := ":"
def sEmpty : String := ""
def recAllow : String := "allow"
def recVerify : String := "verify"
def recDecline : String := "decline"
def nAmountSpike : String := "amount_spike"
def nFrequency : String := "frequency"
def nNewMerchant : String := "new_merchant"
def nGeographic : String := "geographic"
def nTimeAnomaly : String := "time_anomaly"

/-- Python truthiness of an optional string (`None` and `""` are falsy). -/
def optTruthy : Option String → Bool
  | none => false
  | some s => s ≠ sEmpty

/-- Python truthiness of an optional list (`None` and `[]` are falsy). -/
def listTruthy : Option (List String) → Bool
  | none => false
  | some l => l ≠ []

/-! ### Settings (app/config.py)

`Settings.token_expiry_seconds = 3600`, `Settings.auth_code_expiry_seconds
= 300`. -/

def tokenExpirySeconds : Int := 3600
def authCodeExpirySeconds : Int := 300

/-! ### Token service (app/services/token_service.py) -/

/-- Decoded token payload (`TokenPayload` dataclass). -/
structure TokenPayload where
  consent_id : String
  user_id : String
  max_amount : Option ℚ
  currency : Option String
  allowed_merchants : Option (List String)
  allowed_categories : Option (List String)
  intent_description : String
  issued_at : Int
  expires_at : Int
  single_use : Bool
deriving DecidableEq

/-- Result of token verification (`TokenVerificationResult` dataclass; the
human-readable `message` field is not modelled). -/
structure TokenVerificationResult where
  valid : Bool
  payload : Option TokenPayload := none
  reason : Option String := none
deriving DecidableEq

/-- A delegation token as the bearer presents it: the signed JWT claim set
plus a `sig_ok` flag standing for "the HMAC signature verifies under the
service's secret key".  `jwt.decode` checks the signature, then `exp`
(PyJWT: expired iff `exp ≤ now` with zero leeway), then the `iss` claim. -/
structure DelegationToken where
  sig_ok : Bool
  iss : String
  sub : String
  consent_id : String
  intent : String
  max_amount : Option ℚ
  currency : Option String
  allowed_merchants : Option (List String)
  allowed_categories : Option (List String)
  iat : Int
  exp : Int
  single_use : Bool
deriving DecidableEq

/-- `TokenService.create_delegation_token`: issues a signed token embedding
the consent constraints; `expires_at = None` defaults to
`now + token_expiry_seconds`. -/
def create_delegation_token (consent_id user_id intent_description : String)
    (max_amount : ℚ) (currency : String)
    (allowed_merchants allowed_categories : Option (List String))
    (expires_at : Option Int) (single_use : Bool) (now : Int) : DelegationToken :=
  { sig_ok := true
    iss := sAgentauth
    sub := user_id
    consent_id := consent_id
    intent := intent_description
    max_amount := some max_amount
    currency := some currency
    allowed_merchants := allowed_merchants
    allowed_categories := allowed_categories
    iat := now
    exp := match expires_at with
      | some e => e
      | none => now + tokenExpirySeconds
    single_use := single_use }

/-- The payload object built at token_service.py lines 148-159. -/
def payloadOfToken (t : DelegationToken) : TokenPayload :=
  { consent_id := t.consent_id
    user_id := t.sub
    max_amount := t.max_amount
    currency := t.currency
    allowed_merchants := t.allowed_merchants
    allowed_categories := t.allowed_categories
    intent_description := t.intent
    issued_at := t.iat
    expires_at := t.exp
    single_use := t.single_use }

/-- Amount-constraint violation (token_service.py line 166):
`max_amount is not None and request_amount > max_amount`. -/
def amountExceeds (maxAmount : Option ℚ) (requestAmount : ℚ) : Bool :=
  match maxAmount with
  | some m => requestAmount > m
  | none => false

/-- Currency-constraint violation (line 175):
`currency is not None and request_currency and request_currency != currency`. -/
def currencyMismatches (tokenCurrency requestCurrency : Option String) : Bool :=
  match tokenCurrency with
  | some c => optTruthy requestCurrency && requestCurrency ≠ some c
  | none => false

/-- Membership-restriction violation (lines 184-201, used for both merchant
and category): restriction list truthy, request value truthy, and the value
is not in the list. -/
def notInAllowedList (allowed : Option (List String)) (value : Option String) : Bool :=
  listTruthy allowed && optTruthy value &&
    (match allowed, value with
     | some l, some m => ¬ m ∈ l
     | _, _ => false)

/-- `TokenService.verify_token`: decode (signature, expiry, issuer), then —
when a transaction is supplied — the amount, currency, merchant and
category constraint checks, in that order. -/
def verify_token (t : DelegationToken) (request_amount : Option ℚ)
    (request_currency request_merchant_id request_merchant_category : Option String)
    (now : Int) : TokenVerificationResult :=
  if ¬ t.sig_ok then { valid := false, reason := some rInvalidToken }
  else if t.exp ≤ now then { valid := false, reason := some rTokenExpired }
  else if t.iss ≠ sAgentauth then { valid := false, reason := some rInvalidToken }
  else
    let payload := payloadOfToken t
    match request_amount with
    | none => { valid := true, payload := some payload }
    | some amt =>
      if amountExceeds t.max_amount amt then
        { valid := false, payload := some payload, reason := some rAmountExceeded }
      else if currencyMismatches t.currency request_currency then
        { valid := false, payload := some payload, reason := some rCurrencyMismatch }
      else if notInAllowedList t.allowed_merchants request_merchant_id then
        { valid := false, payload := some payload, reason := some rMerchantNotAllowed }
      else if notInAllowedList t.allowed_categories request_merchant_category then
        { valid := false, payload := some payload, reason := some rCategoryNotAllowed }
      else { valid := true, payload := some payload }

/-! ### Consent records and token issuance -/

/-- Modelled from the spec: the `Consent` record (spec §3 and §6).  The ORM
model `app/models/consent.py` is not among the provided sources; its fields
are reconstructed from the spec's data model and from every attribute the
provided services read (`consent_id`, `user_id`, `intent_description`,
`max_amount`, `currency`, constraint lists, `expires_at`, `single_use`,
`is_active`, `revoked_at`, `signature`, `public_key`, `created_at`). -/
structure Consent where
  consent_id : String
  user_id : String
  developer_id : String
  intent_description : String
  max_amount : ℚ
  currency : String
  allowed_merchants : Option (List String)
  allowed_categories : Option (List String)
  expires_at : Int
  single_use : Bool
  is_active : Bool
  revoked_at : Option Int
  signature : Option String
  public_key : Option String
  created_at : Int
deriving DecidableEq

/-- Modelled from the spec: token issuance for a consent (spec §4.1,
`issue(consent) → token`).  `ConsentService.create_consent` (not among the
provided sources) calls `TokenService.create_delegation_token` — which is
in the sources and is used here — with the consent's identifiers,
constraints and expiry. -/
def tokenOfConsent (c : Consent) (issuedAt : Int) : DelegationToken :=
  create_delegation_token c.consent_id c.user_id c.intent_description
    c.max_amount c.currency c.allowed_merchants c.allowed_categories
    (some c.expires_at) c.single_use issuedAt

/-! ### Auth service (app/services/auth_service.py) -/

/-- The consent dict cached in `_consent_cache` (auth_service.py lines
101-108).  The `constraints` entry of the dict is stored but never read by
any provided code, and is not modelled. -/
structure ConsentData where
  consent_id : String
  user_id : String
  is_active : Bool
  revoked_at : Option Int
  expires_at : Int
deriving DecidableEq

/-- The cached-consent dict built from a database `Consent` row
(auth_service.py lines 101-108). -/
def consentDataOf (c : Consent) : ConsentData :=
  { consent_id := c.consent_id
    user_id := c.user_id
    is_active := c.is_active
    revoked_at := c.revoked_at
    expires_at := c.expires_at }

/-- A value of `_auth_cache` (auth_service.py lines 158-166).  The dict is
created without an `is_used` key; `cached_auth.get("is_used")` is then
falsy, which is modelled by initializing `is_used := false`. -/
structure AuthRecord where
  consent_id : String
  decision : String
  amount : ℚ
  currency : String
  merchant_id : Option String
  expires_at : Int
  created_at : Int
  is_used : Bool
  used_at : Option Int
deriving DecidableEq

/-- An element of the async persistence queue `_auth_queue`
(auth_service.py lines 169-181). -/
structure QueuedAuth where
  authorization_code : String
  consent_id : String
  decision : String
  amount : ℚ
  currency : String
  merchant_id : Option String
  merchant_name : Option String
  merchant_category : Option String
  action : String
  description : Option String
  expires_at : Int
deriving DecidableEq

/-- Modelled from the spec: a row of the durable `Authorization` table
(spec §3, `AuthorizationRecord`).  The ORM model
`app/models/authorization.py` is not among the provided sources; fields
are reconstructed from the spec and from every attribute
`VerifyService.verify` and the queue flush read or write. -/
structure Authorization where
  id : String
  authorization_code : String
  consent_id : String
  decision : String
  amount : ℚ
  currency : String
  merchant_id : Option String
  merchant_name : Option String
  merchant_category : Option String
  action : String
  expires_at : Int
  is_used : Bool
  used_at : Option Int
  verified_at : Option Int
  verified_by : Option String
  created_at : Int
deriving DecidableEq

/-- The transaction body of an authorize request (schemas/authorize.py,
`Transaction`; `currency` defaults to `"USD"`). -/
structure Transaction where
  amount : ℚ
  currency : String := "USD"
  merchant_id : Option String := none
  merchant_name : Option String := none
  merchant_category : Option String := none
  description : Option String := none
deriving DecidableEq

/-- Request body of `POST /v1/authorize` (schemas/authorize.py,
`AuthorizeRequest`; `action` defaults to `"payment"`). -/
structure AuthorizeRequest where
  delegation_token : DelegationToken
  action : String := "payment"
  transaction : Transaction
deriving DecidableEq

/-- Response of `POST /v1/authorize` (schemas/authorize.py,
`AuthorizeResponse`).  `message` and `step_up_url` carry no decision
content (`step_up_url` is never set by any provided code) and are not
modelled. -/
structure AuthorizeResponse where
  decision : String
  authorization_code : Option String := none
  expires_at : Option Int := none
  consent_id : Option String := none
  reason : Option String := none
deriving DecidableEq

/-- The mutable stores the two services share: the in-process consent
cache `_consent_cache` (value paired with its `cached_at` instant), the
durable consent table, the in-process `_auth_cache`, the durable
`Authorization` table fed by the flush worker, and the async write queue
`_auth_queue`.  Python dicts are modelled as association lists looked up
and updated at their first matching key. -/
structure SystemState where
  consent_cache : List (String × ConsentData × Int) := []
  consent_db : List (String × Consent) := []
  auth_cache : List (String × AuthRecord) := []
  auth_db : List Authorization := []
  auth_queue : List QueuedAuth := []
deriving DecidableEq

/-- `AuthService._get_cached_consent`: return the cached dict when present
and younger than `CACHE_TTL_SECONDS = 300`.  (The deletion of a stale
entry and the cache-population and size-eviction writes of
`_cache_consent` mutate only the consent cache and never change any value
the claims mention; the consent lookup is therefore modelled as
read-only.) -/
def getCachedConsent (cache : List (String × ConsentData × Int)) (cid : String)
    (now : Int) : Option ConsentData :=
  match cache.lookup cid with
  | some (d, cachedAt) => if now - cachedAt < 300 then some d else none
  | none => none

/-- Modelled from the spec: `ConsentService.get_active_consent` (not among
the provided sources; spec §4.2/§4.3 step 2) returns the consent only when
it is live: `is_active ∧ ¬revoked ∧ ¬expired`. -/
def getActiveConsent (db : List (String × Consent)) (cid : String)
    (now : Int) : Option ConsentData :=
  match db.lookup cid with
  | some c =>
    if c.is_active ∧ c.revoked_at = none ∧ now < c.expires_at then
      some (consentDataOf c)
    else none
  | none => none

/-- `AuthService._check_consent_cached`: validate a fresh cache hit
(`is_active and not revoked_at` and `expires_at > now`; an invalid hit
returns `None` without touching the database), else fall back to
`get_active_consent`. -/
def checkConsentCached (st : SystemState) (cid : String) (now : Int) :
    Option ConsentData :=
  match getCachedConsent st.consent_cache cid now with
  | some d =>
    if d.is_active ∧ d.revoked_at = none ∧ now < d.expires_at then some d
    else none
  | none => getActiveConsent st.consent_db cid now

/-- Append to `_auth_queue`, a `deque(maxlen=10000)`: appending to a full
deque drops its oldest element. -/
def pushAuthQueue (q : List QueuedAuth) (x : QueuedAuth) : List QueuedAuth :=
  if q.length ≥ 10000 then q.drop 1 ++ [x] else q ++ [x]

/-- `AuthService.authorize`: verify the delegation token against the
transaction; on failure deny with the token reason; then check the consent
(cache first, database fallback); on failure deny with `consent_invalid`;
otherwise cache an authorization record under a fresh code, enqueue the
durable write, and allow.  The fresh code produced by
`generate_authorization_code` is passed in as `freshCode`. -/
def authorize (st : SystemState) (req : AuthorizeRequest) (now : Int)
    (freshCode : String) : AuthorizeResponse × SystemState :=
  let v := verify_token req.delegation_token (some req.transaction.amount)
    (some req.transaction.currency) req.transaction.merchant_id
    req.transaction.merchant_category now
  match v.valid, v.payload with
  | true, some p =>
    match checkConsentCached st p.consent_id now with
    | none => ({ decision := sDENY, reason := some rConsentInvalid }, st)
    | some _ =>
      let expiresAt := now + authCodeExpirySeconds
      let cacheEntry : AuthRecord :=
        { consent_id := p.consent_id
          decision := sALLOW
          amount := req.transaction.amount
          currency := req.transaction.currency
          merchant_id := req.transaction.merchant_id
          expires_at := expiresAt
          created_at := now
          is_used := false
          used_at := none }
      let queued : QueuedAuth :=
        { authorization_code := freshCode
          consent_id := p.consent_id
          decision := sALLOW
          amount := req.transaction.amount
          currency := req.transaction.currency
          merchant_id := req.transaction.merchant_id
          merchant_name := req.transaction.merchant_name
          merchant_category := req.transaction.merchant_category
          action := req.action
          description := req.transaction.description
          expires_at := expiresAt }
      ({ decision := sALLOW
         authorization_code := some freshCode
         expires_at := some expiresAt
         consent_id := some p.consent_id },
       { st with
         auth_cache := (freshCode, cacheEntry) :: st.auth_cache
         auth_queue := pushAuthQueue st.auth_queue queued })
  | _, _ => ({ decision := sDENY, reason := v.reason }, st)

/-! ### Velocity service (app/services/velocity_service.py) -/

/-- Outcome of one velocity rule (`VelocityRuleResult`). -/
inductive VelocityRuleResult where
  | pass
  | warn
  | block
deriving DecidableEq

/-- Aggregated result of `VelocityService.check_velocity`
(`VelocityCheckResult`; the diagnostic `details` dicts the rules attach are
informational only — no control flow or claim reads them — and are not
modelled). -/
structure VelocityCheckResult where
  allowed : Bool
  rule_triggered : Option String
  risk_score : ℚ
  recommendation : String
deriving DecidableEq

/-- The per-user data the five rules read through the cache accessors
(`get_user_avg_transaction`, `get_recent_transaction_count`,
`is_first_merchant_transaction`, `get_last_transaction_location`,
`get_time_since_last_transaction`, `get_user_typical_hours`), gathered in
one record.  `time_since_last` is in seconds. -/
structure VelocityState where
  historical_avg : Option ℚ
  recent_txn_count : ℕ
  known_merchants : List String
  last_location_country : Option String
  time_since_last : Option Int
  typical_hours : Option (List ℕ)
deriving DecidableEq

/-- `VelocityRules.check_amount_spike`: no (or zero) history → WARN only
above 1000; otherwise ratio ≥ 6 (`AMOUNT_SPIKE_MULTIPLIER * 2`) → BLOCK,
ratio ≥ 3 → WARN. -/
def check_amount_spike (amount : ℚ) (historical_avg : Option ℚ) : VelocityRuleResult :=
  match historical_avg with
  | none => if amount > 1000 then .warn else .pass
  | some avg =>
    if avg = 0 then (if amount > 1000 then .warn else .pass)
    else if amount / avg ≥ 6 then .block
    else if amount / avg ≥ 3 then .warn
    else .pass

/-- `VelocityRules.check_frequency`: count ≥ 10 → BLOCK, count ≥ 7
(`10 * 0.7`) → WARN. -/
def check_frequency (recent_txn_count : ℕ) : VelocityRuleResult :=
  if recent_txn_count ≥ 10 then .block
  else if recent_txn_count ≥ 7 then .warn
  else .pass

/-- `VelocityRules.check_new_merchant_high_value`: only first-time
merchants are flagged (`merchants and merchant_id in merchants` is, for a
list, membership); amount ≥ 1000 → BLOCK, ≥ 500 → WARN. -/
def check_new_merchant_high_value (known_merchants : List String)
    (merchant_id : String) (amount : ℚ) : VelocityRuleResult :=
  if merchant_id ∈ known_merchants then .pass
  else if amount ≥ 1000 then .block
  else if amount ≥ 500 then .warn
  else .pass

/-- `VelocityRules.check_geographic_anomaly`: nothing to compare, or no
stored location, or equal countries → PASS; country change within two
hours → BLOCK (impossible travel; a zero `timedelta` is falsy in Python,
hence the `t ≠ 0` conjunct), otherwise WARN. -/
def check_geographic_anomaly (current_location ip_address : Option String)
    (last_country : Option String) (time_since_last : Option Int) : VelocityRuleResult :=
  if ¬ optTruthy current_location ∧ ¬ optTruthy ip_address then .pass
  else
    match last_country with
    | none => .pass
    | some lc =>
      if optTruthy current_location ∧ lc ≠ sEmpty then
        if current_location ≠ some lc then
          match time_since_last with
          | some t => if t ≠ 0 ∧ t < 7200 then .block else .warn
          | none => .warn
        else .pass
      else .pass

/-- The suspicious hours `{0, 1, 2, 3, 4}`. -/
def suspiciousHours : List ℕ := [0, 1, 2, 3, 4]

/-- `VelocityRules.check_time_anomaly`: an hour in the suspicious set that
is not among the user's (truthy) typical hours → WARN. -/
def check_time_anomaly (hour : ℕ) (typical_hours : Option (List ℕ)) : VelocityRuleResult :=
  if hour ∈ suspiciousHours then
    if (match typical_hours with
        | some hs => hs ≠ [] && hour ∈ hs
        | none => false : Bool) then .pass
    else .warn
  else .pass

/-- Contribution of one rule to the risk score (velocity_service.py lines
291-296): BLOCK adds the full weight, WARN half of it. -/
def ruleScore (r : VelocityRuleResult) (weight : ℚ) : ℚ :=
  match r with
  | .block => weight
  | .warn => weight * (1 / 2)
  | .pass => 0

/-- The accumulation loop over the rule results. -/
def aggregateScore (results : List (VelocityRuleResult × ℚ)) : ℚ :=
  results.foldl (fun acc x => acc + ruleScore x.1 x.2) 0

/-- The first rule reported as BLOCK, in evaluation order. -/
def firstBlockingRule : List (String × VelocityRuleResult) → Option String
  | [] => none
  | (n, r) :: rest => if r = VelocityRuleResult.block then some n else firstBlockingRule rest

/-- `VelocityService.check_velocity`: run the five rules, aggregate the
weighted score (weights 30/25/20/15/10, capped at 100), and map it to a
recommendation: ≥ 50 decline (not allowed), ≥ 25 verify, else allow.  The
transaction hour is passed directly (the source takes a datetime and reads
`.hour`). -/
def check_velocity (vs : VelocityState) (amount : ℚ) (merchant_id : String)
    (location ip_address : Option String) (hour : ℕ) : VelocityCheckResult :=
  let r1 := check_amount_spike amount vs.historical_avg
  let r2 := check_frequency vs.recent_txn_count
  let r3 := check_new_merchant_high_value vs.known_merchants merchant_id amount
  let r4 := check_geographic_anomaly location ip_address vs.last_location_country
    vs.time_since_last
  let r5 := check_time_anomaly hour vs.typical_hours
  let risk_score := aggregateScore [(r1, 30), (r2, 25), (r3, 20), (r4, 15), (r5, 10)]
  let blocking := firstBlockingRule
    [(nAmountSpike, r1), (nFrequency, r2), (nNewMerchant, r3), (nGeographic, r4),
     (nTimeAnomaly, r5)]
  if risk_score ≥ 50 then
    { allowed := false, rule_triggered := blocking, risk_score := min 100 risk_score,
      recommendation := recDecline }
  else if risk_score ≥ 25 then
    { allowed := true, rule_triggered := blocking, risk_score := min 100 risk_score,
      recommendation := recVerify }
  else
    { allowed := true, rule_triggered := blocking, risk_score := min 100 risk_score,
      recommendation := recAllow }

/-! ### Verify service (app/services/verify_service.py) -/

/-- Transaction body of a verify request (schemas/verify.py,
`VerifyTransaction`; `currency` defaults to `"USD"`). -/
structure VerifyTransaction where
  amount : ℚ
  currency : String := "USD"
deriving DecidableEq

/-- Request body of `POST /v1/verify` (schemas/verify.py,
`VerifyRequest`). -/
structure VerifyRequest where
  authorization_code : String
  transaction : VerifyTransaction
  merchant_id : Option String := none
deriving DecidableEq

/-- Consent proof for chargeback defense (schemas/verify.py,
`ConsentProof`). -/
structure ConsentProof where
  consent_id : String
  user_authorized_at : Int
  user_intent : String
  max_authorized_amount : ℚ
  actual_amount : ℚ
  currency : String
  signature_valid : Bool
deriving DecidableEq

/-- The claim set of `TokenService.create_proof_token` (its constant
`iss`/`type` claims are omitted). -/
structure ProofToken where
  consent_id : String
  authorization_code : String
  user_intent : String
  max_authorized_amount : ℚ
  actual_amount : ℚ
  currency : String
  verified_at : Int
deriving DecidableEq

/-- `TokenService.create_proof_token`: signs the verified-purchase facts. -/
def create_proof_token (consent_id authorization_code user_intent : String)
    (max_amount actual_amount : ℚ) (currency : String) (verified_at : Int) : ProofToken :=
  { consent_id := consent_id
    authorization_code := authorization_code
    user_intent := user_intent
    max_authorized_amount := max_amount
    actual_amount := actual_amount
    currency := currency
    verified_at := verified_at }

/-- Response of `POST /v1/verify` (schemas/verify.py, `VerifyResponse`). -/
structure VerifyResponse where
  valid : Bool
  authorization_id : Option String := none
  consent_proof : Option ConsentProof := none
  verification_timestamp : Int
  proof_token : Option ProofToken := none
  error : Option String := none
deriving DecidableEq

/-- Python `s.startswith(p)`, computed on the code-point lists (equivalent
to `String.startsWith`, stated this way so that it evaluates by `decide`). -/
def strStartsWith (s p : String) : Bool :=
  List.isPrefixOf p.toList s.toList

/-- Python `s[n:]` (drop the first `n` code points). -/
def strDrop (s : String) (n : ℕ) : String :=
  String.mk (s.toList.drop n)

/-- The HMAC message `f"{consent_id}:{user_id}:{public_key}"`. -/
def sigMessage (consent_id user_id public_key : String) : String :=
  consent_id ++ sColon ++ user_id ++ sColon ++ public_key

/-- `VerifyService._verify_consent_signature`.  `hmacHex m` stands for
`hmac.new(settings.secret_key, m, sha256).hexdigest()` (the secret key is
baked into the function).  A missing or empty signature or public key is
accepted (legacy), the literal `"sdk_generated"` is trusted, only
signatures starting with `"hmac_"` are compared (`compare_digest` is
constant-time equality) against the recomputed digest, and any other
format is accepted for backward compatibility.  The `try/except` wrapper
cannot fire in this pure model. -/
def verifyConsentSignature (hmacHex : String → String) (consent_id user_id : String)
    (signature public_key : Option String) : Bool :=
  match signature, public_key with
  | some sig, some pk =>
    if sig = sEmpty ∨ pk = sEmpty then true
    else if sig = sSdkGenerated then true
    else if strStartsWith sig sHmacTag then
      strDrop sig 5 = hmacHex (sigMessage consent_id user_id pk)
    else true
  | _, _ => true

/-- The amount tolerance `0.01` of the redeem checks
(verify_service.py lines 69 and 172). -/
def amountTolerance : ℚ := 1 / 100

/-- Mark a `_auth_cache` entry used (verify_service.py lines 98-100):
the first binding of the code gets `is_used := true, used_at := now`. -/
def markCacheUsed : List (String × AuthRecord) → String → Int → List (String × AuthRecord)
  | [], _, _ => []
  | (k, r) :: rest, code, now =>
    if k = code then (k, { r with is_used := true, used_at := some now }) :: rest
    else (k, r) :: markCacheUsed rest code now

/-- `select(Authorization).where(authorization_code == code)` with
`scalar_one_or_none()`: the (first) row with the given code. -/
def lookupAuthDb : List Authorization → String → Option Authorization
  | [], _ => none
  | a :: rest, code =>
    if a.authorization_code = code then some a else lookupAuthDb rest code

/-- Mark the durable authorization row used (verify_service.py lines
201-206): `used_at`, `is_used`, `verified_at`, `verified_by`. -/
def markDbUsed : List Authorization → String → Int → Option String → List Authorization
  | [], _, _, _ => []
  | a :: rest, code, now, merchant =>
    if a.authorization_code = code then
      { a with
        is_used := true
        used_at := some now
        verified_at := some now
        verified_by := merchant } :: rest
    else a :: markDbUsed rest code now merchant

/-- The cache-hit branch of `VerifyService.verify` (lines 53-138): used,
expired, amount (tolerance 0.01) and currency checks, then consent lookup
(a plain select, no liveness check), then mark used in the cache and build
the proof.  `freshId` stands for the `uuid.uuid4()` generated for the
`authorization_id` of a cache-path response. -/
def verifyCached (hmacHex : String → String) (freshId : String) (st : SystemState)
    (req : VerifyRequest) (now : Int) (cached : AuthRecord) :
    VerifyResponse × SystemState :=
  if cached.is_used then
    ({ valid := false, verification_timestamp := now, error := some eAlreadyUsed }, st)
  else if cached.expires_at < now then
    ({ valid := false, verification_timestamp := now, error := some eExpired }, st)
  else if |cached.amount - req.transaction.amount| > amountTolerance then
    ({ valid := false, verification_timestamp := now, error := some eAmountMismatch }, st)
  else if cached.currency ≠ req.transaction.currency then
    ({ valid := false, verification_timestamp := now, error := some eCurrencyMismatch }, st)
  else
    match st.consent_db.lookup cached.consent_id with
    | none =>
      ({ valid := false, verification_timestamp := now, error := some eConsentNotFound }, st)
    | some consent =>
      ({ valid := true
         authorization_id := some freshId
         consent_proof := some
           { consent_id := consent.consent_id
             user_authorized_at := consent.created_at
             user_intent := consent.intent_description
             max_authorized_amount := consent.max_amount
             actual_amount := cached.amount
             currency := cached.currency
             signature_valid := verifyConsentSignature hmacHex consent.consent_id
               consent.user_id consent.signature consent.public_key }
         verification_timestamp := now
         proof_token := some (create_proof_token consent.consent_id
           req.authorization_code consent.intent_description consent.max_amount
           cached.amount cached.currency now) },
       { st with auth_cache := markCacheUsed st.auth_cache req.authorization_code now })

/-- The database-fallback branch of `VerifyService.verify` (lines
140-244): not-found, used, expired, amount and currency checks, consent
lookup, mark the row used, build the proof. -/
def verifyDb (hmacHex : String → String) (st : SystemState) (req : VerifyRequest)
    (now : Int) : VerifyResponse × SystemState :=
  match lookupAuthDb st.auth_db req.authorization_code with
  | none =>
    ({ valid := false, verification_timestamp := now, error := some eNotFound }, st)
  | some a =>
    if a.is_used then
      ({ valid := false, verification_timestamp := now, error := some eAlreadyUsed }, st)
    else if a.expires_at < now then
      ({ valid := false, verification_timestamp := now, error := some eExpired }, st)
    else if |a.amount - req.transaction.amount| > amountTolerance then
      ({ valid := false, verification_timestamp := now, error := some eAmountMismatch }, st)
    else if a.currency ≠ req.transaction.currency then
      ({ valid := false, verification_timestamp := now, error := some eCurrencyMismatch }, st)
    else
      match st.consent_db.lookup a.consent_id with
      | none =>
        ({ valid := false, verification_timestamp := now, error := some eConsentNotFound }, st)
      | some consent =>
        ({ valid := true
           authorization_id := some a.id
           consent_proof := some
             { consent_id := consent.consent_id
               user_authorized_at := consent.created_at
               user_intent := consent.intent_description
               max_authorized_amount := consent.max_amount
               actual_amount := a.amount
               currency := a.currency
               signature_valid := verifyConsentSignature hmacHex consent.consent_id
                 consent.user_id consent.signature consent.public_key }
           verification_timestamp := now
           proof_token := some (create_proof_token consent.consent_id
             a.authorization_code consent.intent_description consent.max_amount
             a.amount a.currency now) },
         { st with
           auth_db := markDbUsed st.auth_db req.authorization_code now req.merchant_id })

/-- `VerifyService.verify`: in-memory cache first, database fallback.
(`consent.max_amount or 0` of the source collapses to `max_amount` here
because the modelled consent's limit is a total rational and `0 or 0 =
0`.) -/
def verify (hmacHex : String → String) (freshId : String) (st : SystemState)
    (req : VerifyRequest) (now : Int) : VerifyResponse × SystemState :=
  match st.auth_cache.lookup req.authorization_code with
  | some cached => verifyCached hmacHex freshId st req now cached
  | none => verifyDb hmacHex st req now

/-! ### Idempotency middleware (app/middleware/idempotency.py) -/

/-- The endpoints requiring idempotency (`IDEMPOTENT_ENDPOINTS`). -/
def idempotentEndpoints : List String :=
  ["/v1/authorize", "/v1/consents", "/v1/transactions"]

/-- An incoming HTTP request as the middleware reads it: method, path, the
`Idempotency-Key` header, and the `Authorization` header (`""` when
absent). -/
structure HttpRequest where
  method : String
  path : String
  idempotency_key : Option String
  authorization : String := ""
deriving DecidableEq

/-- `validate_idempotency_key`: falsy or shorter than 16 characters is
invalid. -/
def validate_idempotency_key (key : String) : Bool :=
  ¬ (key = sEmpty ∨ key.length < 16)

/-- The composite cache key: the source hashes
`f"{api_key[:20]}:{method}:{path}:{key}"` with SHA-256 (truncated to 48
hex chars); the digest is modelled by the injective constructor of this
record of the hashed components. -/
structure CacheKey where
  api_key20 : String
  method : String
  path : String
  idempotency_key : String
deriving DecidableEq

/-- `IdempotencyMiddleware._make_cache_key`. -/
def makeCacheKey (req : HttpRequest) (key : String) : CacheKey :=
  { api_key20 := String.mk (req.authorization.toList.take 20)
    method := req.method
    path := req.path
    idempotency_key := key }

/-- A cached `{status_code, body}` response (`cache_service.set_idempotency`
payload).  `β` is the (parsed JSON) body type. -/
structure CachedResponse (β : Type) where
  status_code : ℕ
  body : β
deriving DecidableEq

/-- Body of a middleware response: either an application body or one of
the middleware's own error JSONs. -/
inductive MwBody (β : Type) where
  | app : β → MwBody β
  | invalidKey : MwBody β
  | conflict : MwBody β
deriving DecidableEq

/-- A middleware response: status, body, and whether the
`Idempotent-Replayed: true` header was attached. -/
structure MwResponse (β : Type) where
  status_code : ℕ
  body : MwBody β
  replayed : Bool
deriving DecidableEq

/-- State the middleware touches: the idempotency response cache, the set
of held locks (`lock:{cache_key}` Redis keys), and the inner application
state `σ` mutated by the wrapped handler. -/
structure MwState (σ β : Type) where
  idem_cache : List (CacheKey × CachedResponse β)
  locks : List CacheKey
  inner : σ
deriving DecidableEq

/-- Run the wrapped application (`call_next`) and return its response as a
passthrough (no caching, no replay marking). -/
def passthrough (handler : σ → HttpRequest → (ℕ × β) × σ) (st : MwState σ β)
    (req : HttpRequest) : MwResponse β × MwState σ β :=
  let r := handler st.inner req
  ({ status_code := r.1.1, body := MwBody.app r.1.2, replayed := false },
   { st with inner := r.2 })

/-- `IdempotencyMiddleware.dispatch`.  Non-POST/PUT methods, paths outside
the idempotent endpoints and requests without a key pass through; an
invalid key is a 400; a cached response replays with the indicator and
without running the handler; a held lock is a 409 conflict; otherwise the
lock is taken, the handler runs, a 2xx response is cached, and the lock is
released (the `finally` releases it on every exit of the processing
branch, so the lock set is restored in both outcomes). -/
def dispatch (handler : σ → HttpRequest → (ℕ × β) × σ) (st : MwState σ β)
    (req : HttpRequest) : MwResponse β × MwState σ β :=
  if ¬ (req.method = "POST" ∨ req.method = "PUT") then passthrough handler st req
  else if ¬ (idempotentEndpoints.any fun e => strStartsWith req.path e) then
    passthrough handler st req
  else
    match req.idempotency_key with
    | none => passthrough handler st req
    | some key =>
      if ¬ validate_idempotency_key key then
        ({ status_code := 400, body := MwBody.invalidKey, replayed := false }, st)
      else
        let ck := makeCacheKey req key
        match st.idem_cache.lookup ck with
        | some cached =>
          ({ status_code := cached.status_code, body := MwBody.app cached.body,
             replayed := true }, st)
        | none =>
          if ck ∈ st.locks then
            ({ status_code := 409, body := MwBody.conflict, replayed := false }, st)
          else
            let r := handler st.inner req
            if 200 ≤ r.1.1 ∧ r.1.1 < 300 then
              ({ status_code := r.1.1, body := MwBody.app r.1.2, replayed := false },
               { st with
                 idem_cache := (ck, { status_code := r.1.1, body := r.1.2 }) :: st.idem_cache
                 inner := r.2 })
            else
              ({ status_code := r.1.1, body := MwBody.app r.1.2, replayed := false },
               { st with inner := r.2 })

/-! ### Compliance audit service (app/services/audit_service.py) -/

/-- An SHA-256 digest value in the hash chain, modelled as either the
genesis value (`"0" * 64`) or the injective digest of the nine hashed
components of `AuditEntry.compute_hash` (`event_id`, `event_type`,
`timestamp`, `actor_id`, `resource_id`, `action`, `outcome`, `details`,
`previous_hash`); collisions are assumed not to occur. -/
inductive AuditHash where
  | genesis : AuditHash
  | digest : String → String → Int → String → String → String → String →
      List (String × String) → AuditHash → AuditHash
deriving DecidableEq

/-- An audit log entry (`AuditEntry` dataclass).  The Ed25519 `signature`
over `record_hash` is written but read by no provided code (neither
`query` nor `verify_integrity` checks it) and is not modelled; `details`
dicts are modelled as association lists of strings. -/
structure AuditEntry where
  event_id : String
  event_type : String
  timestamp : Int
  severity : String
  actor_type : String
  actor_id : String
  actor_ip : String
  resource_type : String
  resource_id : String
  developer_id : String
  action : String
  outcome : String
  details : List (String × String)
  data_classification : String
  retention_days : ℕ
  record_hash : AuditHash
  previous_hash : AuditHash
deriving DecidableEq

/-- `AuditEntry.compute_hash`: digest of the nine components (the stored
`record_hash` itself is not part of the digest). -/
def compute_hash (e : AuditEntry) : AuditHash :=
  AuditHash.digest e.event_id e.event_type e.timestamp e.actor_id e.resource_id
    e.action e.outcome e.details e.previous_hash

/-- The caller-supplied arguments of `ComplianceAuditService.log`, plus the
generated `event_id` and `timestamp` (uuid4 and now in the source). -/
structure LogInput where
  event_id : String
  event_type : String
  timestamp : Int
  severity : String := "info"
  actor_type : String := ""
  actor_id : String := ""
  actor_ip : String := ""
  resource_type : String := ""
  resource_id : String := ""
  developer_id : String := ""
  action : String := ""
  outcome : String := "success"
  details : List (String × String) := []
  data_classification : String := "internal"
deriving DecidableEq

/-- State of the audit service: the single `_last_hash` (one per service,
not per tenant) and the persisted entries in append order.  The buffer and
its Redis flush preserve content and order and are modelled as a direct
append; `query` reads the per-tenant timeline in timestamp order, which is
modelled by filtering and sorting the store. -/
structure AuditState where
  last_hash : AuditHash
  store : List AuditEntry
deriving DecidableEq

/-- The service right after construction: genesis last hash, empty log. -/
def initAuditState : AuditState :=
  { last_hash := AuditHash.genesis, store := [] }

/-- The entry `ComplianceAuditService.log` builds: `previous_hash` is the
service-wide `_last_hash`, `retention_days` the SOX default 2555, and
`record_hash` is `compute_hash` of the entry (which ignores the
`record_hash` field itself). -/
def mkAuditEntry (last : AuditHash) (i : LogInput) : AuditEntry :=
  let pre : AuditEntry :=
    { event_id := i.event_id
      event_type := i.event_type
      timestamp := i.timestamp
      severity := i.severity
      actor_type := i.actor_type
      actor_id := i.actor_id
      actor_ip := i.actor_ip
      resource_type := i.resource_type
      resource_id := i.resource_id
      developer_id := i.developer_id
      action := i.action
      outcome := i.outcome
      details := i.details
      data_classification := i.data_classification
      retention_days := 2555
      record_hash := AuditHash.genesis
      previous_hash := last }
  { pre with record_hash := compute_hash pre }

/-- `ComplianceAuditService.log`: chain to `_last_hash`, advance
`_last_hash` to the new `record_hash`, persist. -/
def log (st : AuditState) (i : LogInput) : AuditEntry × AuditState :=
  let e := mkAuditEntry st.last_hash i
  (e, { last_hash := e.record_hash, store := st.store ++ [e] })

/-- A sequence of `log` calls. -/
def runLog (st : AuditState) : List LogInput → AuditState
  | [] => st
  | i :: rest => runLog (log st i).2 rest

/-- Stable insertion before the first later-or-equal timestamp (the list
sort used below is stable, as Python's and Redis's orderings are for the
strictly increasing timestamps the claims quantify over). -/
def insertByTimestamp (e : AuditEntry) : List AuditEntry → List AuditEntry
  | [] => [e]
  | x :: xs =>
    if e.timestamp ≤ x.timestamp then e :: x :: xs
    else x :: insertByTimestamp e xs

/-- Sort by `timestamp` (`entries.sort(key=lambda x: x["timestamp"])`;
ISO-8601 strings sort chronologically, modelled by integer instants). -/
def sortByTimestamp : List AuditEntry → List AuditEntry
  | [] => []
  | x :: xs => insertByTimestamp x (sortByTimestamp xs)

/-- `ComplianceAuditService.query`: the tenant's entries in timestamp
order, up to `limit`. -/
def query (st : AuditState) (developer_id : String) (limit : ℕ) : List AuditEntry :=
  (sortByTimestamp (st.store.filter fun e => e.developer_id == developer_id)).take limit

/-- One `hash_chain_broken` error record of `verify_integrity`. -/
structure ChainError where
  event_id : String
  expected : AuditHash
  found : AuditHash
deriving DecidableEq

/-- The verification loop of `verify_integrity`: compare each entry's
`previous_hash` with the predecessor's stored `record_hash` (starting from
genesis); entry hashes are **not** recomputed. -/
def chainErrors (prev : AuditHash) : List AuditEntry → List ChainError
  | [] => []
  | e :: rest =>
    (if e.previous_hash ≠ prev
     then [{ event_id := e.event_id, expected := prev, found := e.previous_hash }]
     else []) ++ chainErrors e.record_hash rest

/-- Result of `verify_integrity`. -/
structure IntegrityResult where
  valid : Bool
  entries_checked : ℕ
  errors : List ChainError
deriving DecidableEq

/-- `ComplianceAuditService.verify_integrity`: query up to 1000 of the
tenant's entries, sort by timestamp, walk the chain from the genesis
hash. -/
def verify_integrity (st : AuditState) (developer_id : String) : IntegrityResult :=
  let entries := query st developer_id 1000
  if entries = [] then { valid := true, entries_checked := 0, errors := [] }
  else
    let sorted := sortByTimestamp entries
    let errs := chainErrors AuditHash.genesis sorted
    { valid := errs.isEmpty, entries_checked := sorted.length, errors := errs }

/-- Overwrite the `details` of the entry at position `i` (an attacker
mutating a stored record in place, without recomputing its hash). -/
def setDetailsAt : List AuditEntry → ℕ → List (String × String) → List AuditEntry
  | [], _, _ => []
  | e :: rest, 0, d => { e with details := d } :: rest
  | e :: rest, n + 1, d => e :: setDetailsAt rest n d

/-- Overwrite the `details` of the entry at position `i` and recompute its
`record_hash` over the mutated fields (the tampering scenario of spec §8);
successor entries keep their stored `previous_hash`. -/
def setDetailsRecomputeAt : List AuditEntry → ℕ → List (String × String) → List AuditEntry
  | [], _, _ => []
  | e :: rest, 0, d =>
    ({ e with details := d, record_hash := compute_hash { e with details := d } }) :: rest
  | e :: rest, n + 1, d => e :: setDetailsRecomputeAt rest n d

/-- Tamper with the stored log without recomputing. -/
def mutateDetails (st : AuditState) (i : ℕ) (d : List (String × String)) : AuditState :=
  { st with store := setDetailsAt st.store i d }

/-- Tamper with the stored log and recompute the mutated record's hash. -/
def mutateDetailsRecompute (st : AuditState) (i : ℕ) (d : List (String × String)) :
    AuditState :=
  { st with store := setDetailsRecomputeAt st.store i d }

/-- The tail hash of a chain segment started at `prev`. -/
def chainEnd (prev : AuditHash) : List AuditEntry → AuditHash
  | [] => prev
  | e :: rest => chainEnd e.record_hash rest

/-! ### Concrete instances used by witnesses and counterexamples -/

/-- A live consent: active, unrevoked, expiring at instant 1000, limit 100
USD, no merchant or category restriction. -/
def consentLive : Consent :=
  { consent_id := "cons_live"
    user_id := "user_1"
    developer_id := "dev_1"
    intent_description := "buy a book"
    max_amount := 100
    currency := "USD"
    allowed_merchants := none
    allowed_categories := none
    expires_at := 1000
    single_use := true
    is_active := true
    revoked_at := none
    signature := some "sdk_generated"
    public_key := some "pk_1"
    created_at := 0
  }

/-- The same consent revoked: `is_active = False`, `revoked_at` set. -/
def consentRevoked : Consent :=
  { consentLive with
    consent_id := "cons_revoked"
    is_active := false
    revoked_at := some 5 }

/-- A state whose consent cache holds `consentLive` (cached at instant 0)
and `consentRevoked` (cached at instant 0). -/
def stWithConsents : SystemState :=
  { consent_cache :=
      [(consentLive.consent_id, consentDataOf consentLive, 0),
       (consentRevoked.consent_id, consentDataOf consentRevoked, 0)]
    consent_db :=
      [(consentLive.consent_id, consentLive),
       (consentRevoked.consent_id, consentRevoked)] }

/-- Helper to assemble an `AuthorizeRequest` (record syntax only). -/
def mkAuthReq (t : DelegationToken) (act : String) (tx : Transaction) : AuthorizeRequest :=
  { delegation_token := t, action := act, transaction := tx }

/-- A 9.99 USD transaction at merchant `github`. -/
def sPayment : String := "payment"

/-- A 150 USD transaction (above the live consent's 100 USD limit). -/
def tx150 : Transaction := { amount := 150 }

def txSmall : Transaction :=
  { amount := mkRat 999 100  -- 9.99
    currency := "USD"
    merchant_id := some "github" }

/-- Velocity state of a user whose historical average is 20 USD and whose
other signals are benign. -/
def vsAvg20 : VelocityState :=
  { historical_avg := some 20
    recent_txn_count := 0
    known_merchants := []
    last_location_country := none
    time_since_last := none
    typical_hours := none }

/-- Velocity state whose amount-spike and frequency rules both fire:
historical average 10 USD and 12 transactions in the last minute. -/
def vsHighRisk : VelocityState :=
  { vsAvg20 with
    historical_avg := some 10
    recent_txn_count := 12 }

/-- A 65 USD transaction at merchant `m_1` (within the live consent's
limit, but a 6.5-fold spike for a user with average 10). -/
def tx65 : Transaction :=
  { amount := 65
    merchant_id := some "m_1" }

/-- Stand-in for the keyed HMAC-SHA-256 hex digest in witnesses (the
theorems about the signature check hold for every digest function). -/
def hmId : String → String := fun s => s

/-- Authorization record as `authorize` caches it on ALLOW for the live
consent: 10 USD, expiring at instant 1000, unused. -/
def authRecW : AuthRecord :=
  { consent_id := "cons_live"
    decision := "ALLOW"
    amount := 10
    currency := "USD"
    merchant_id := some "github"
    expires_at := 1000
    created_at := 0
    is_used := false
    used_at := none }

/-- State holding one cached authorization (`authz_c1`) and the live
consent. -/
def stVerify : SystemState :=
  { consent_db := [("cons_live", consentLive)]
    auth_cache := [("authz_c1", authRecW)] }

/-- A redeem request exactly matching `authRecW`. -/
def vreqW : VerifyRequest :=
  { authorization_code := "authz_c1"
    transaction := { amount := 10, currency := "USD" } }

/-- A redeem request for the same code whose amount differs from the
stored 10 USD by 0.005 — within the 0.01 tolerance. -/
def vreqNear : VerifyRequest :=
  { authorization_code := "authz_c1"
    transaction := { amount := 2001 / 200, currency := "USD" } }

/-- Authorization id stand-in for witnesses. -/
def fidW : String := "vid_1"

/-- A signature in an unrecognized (non-HMAC) format. -/
def sigOther : String := "ed25519_aabbcc"

/-- A well-formed HMAC signature for the witness digest function. -/
def sigHmacW : String := "hmac_" ++ "cons_live" ++ ":" ++ "user_1" ++ ":" ++ "pk_1"

/-- A redeem request whose amount differs by 2 USD. -/
def vreqFar : VerifyRequest :=
  { authorization_code := "authz_c1"
    transaction := { amount := 12, currency := "USD" } }

/-- The well-formedness of an audit service state: the stored chain
verifies from genesis, `_last_hash` is the chain's tail, and every stored
`record_hash` is the digest of its own entry.  Holds for every state
reachable by `log` from the fresh service. -/
def auditInv (st : AuditState) : Prop :=
  chainErrors AuditHash.genesis st.store = [] ∧
  st.last_hash = chainEnd AuditHash.genesis st.store ∧
  ∀ e ∈ st.store, e.record_hash = compute_hash e

/-- First audit event of tenant `devA`. -/
def logA1 : LogInput :=
  { event_id := "ev1"
    event_type := "authorization.approved"
    timestamp := 1
    actor_type := "agent"
    actor_id := "ag1"
    developer_id := "devA"
    action := "authorize_transaction"
    details := [("amount", "10")] }

/-- An interleaved audit event of tenant `devB`. -/
def logB2 : LogInput :=
  { logA1 with
    event_id := "ev2"
    timestamp := 2
    developer_id := "devB" }

/-- Second audit event of tenant `devA`. -/
def logA3 : LogInput :=
  { logA1 with
    event_id := "ev3"
    timestamp := 3 }

/-- Log with tenants interleaved `devA, devB, devA`. -/
def stAudit3 : AuditState := runLog initAuditState [logA1, logB2, logA3]

/-- Log with two `devA` entries only. -/
def stAuditD : AuditState := runLog initAuditState [logA1, logA3]

/-- Tampered details for the mutation scenarios. -/
def dTampered : List (String × String) := [("amount", "999")]

/-- A 16-character idempotency key. -/
def keyW : String := "0123456789abcdef"

/-- A POST /v1/authorize request bearing `keyW`. -/
def httpReqW : HttpRequest :=
  { method := "POST"
    path := "/v1/authorize"
    idempotency_key := some keyW
    authorization := "Bearer demo" }

/-- Middleware state with an empty cache, no locks, and an invocation
counter as the inner application state. -/
def mwStateW : MwState ℕ ℕ :=
  { idem_cache := [], locks := [], inner := 0 }

/-- A handler returning 200 with body 7 and counting its invocations in
the inner state. -/
def handlerW : ℕ → HttpRequest → (ℕ × ℕ) × ℕ :=
  fun n _ => ((200, 7), n + 1)

end AgentAuth

namespace AgentAuth

/-! ## Theorems -/

/-- C1 (amended), helper-free statement: for a consent `C` that is active,
unrevoked and unexpired at the evaluation instant (hence its token is
unexpired too, as the token's `exp` is `C.expires_at`) and found in the
consent cache, and a transaction within `C`'s amount, currency and
merchant/category constraints, `authorize` with the token issued from `C`
returns decision ALLOW carrying an authorization code, an expiry of
`now + auth_code_expiry_seconds`, and `C`'s consent id. -/
theorem authorize_allows_within_constraints (st : SystemState) (c : Consent)
    (tx : Transaction) (act : String) (now issuedAt t0 : Int) (code : String)
    (hexp : now < c.expires_at)
    (hamt : tx.amount ≤ c.max_amount)
    (hcur : tx.currency = c.currency)
    (hmerch : notInAllowedList c.allowed_merchants tx.merchant_id = false)
    (hcat : notInAllowedList c.allowed_categories tx.merchant_category = false)
    (hcache : st.consent_cache.lookup c.consent_id = some (consentDataOf c, t0))
    (hfresh : now - t0 < 300)
    (hactive : c.is_active = true)
    (hrev : c.revoked_at = none) :
    (authorize st (mkAuthReq (tokenOfConsent c issuedAt) act tx) now code).1 =
      { decision := sALLOW
        authorization_code := some code
        expires_at := some (now + authCodeExpirySeconds)
        consent_id := some c.consent_id } := by
  have hne : ¬ c.expires_at ≤ now := not_le.mpr hexp
  have hgt : ¬ tx.amount > c.max_amount := not_lt.mpr hamt
  simp only [authorize, mkAuthReq, verify_token, tokenOfConsent, create_delegation_token,
    payloadOfToken, amountExceeds, currencyMismatches, optTruthy, hcur,
    checkConsentCached, getCachedConsent, consentDataOf]
  simp [consentDataOf, hne, hgt, hmerch, hcat, hcache, hfresh, hactive, hrev, hexp]

/-- Witness for `authorize_allows_within_constraints`: the live consent,
a 9.99 USD transaction at `github`, evaluated at instant 10. -/
theorem authorize_allows_within_constraints_witness :
    (authorize stWithConsents (mkAuthReq (tokenOfConsent consentLive 0) sPayment txSmall)
        10 "authz_w1").1 =
      { decision := sALLOW
        authorization_code := some "authz_w1"
        expires_at := some 310
        consent_id := some "cons_live" } :=
  authorize_allows_within_constraints stWithConsents consentLive txSmall
    sPayment 10 0 0 "authz_w1" (by decide) (by decide) (by decide) (by decide)
    (by decide) (by decide) (by decide) (by decide) (by decide)

/-- C1 counterexample: the claim as stated fails on a revoked consent.
`consentRevoked` satisfies every condition the claim names (9.99 ≤ 100,
currency matches, no merchant restriction), yet `authorize` with its token
returns DENY with reason `consent_invalid`, not ALLOW. -/
theorem authorize_revoked_consent_denies :
    txSmall.amount ≤ consentRevoked.max_amount ∧
    txSmall.currency = consentRevoked.currency ∧
    consentRevoked.allowed_merchants = none ∧
    (authorize stWithConsents (mkAuthReq (tokenOfConsent consentRevoked 0) sPayment txSmall)
        10 "authz_w2").1 =
      { decision := sDENY
        reason := some rConsentInvalid } := by
  decide

/-- C2 (amended): whenever the token issued from consent `C` has not yet
expired and the transaction amount strictly exceeds `C.max_amount`,
`authorize` denies with reason `amount_exceeded` — for every state, i.e.
regardless of the consent's live status, and regardless of the
transaction's currency or merchant, because the amount check is the first
constraint checked. -/
theorem authorize_denies_amount_exceeded (st : SystemState) (c : Consent)
    (tx : Transaction) (act : String) (now issuedAt : Int) (code : String)
    (hexp : now < c.expires_at)
    (hamt : tx.amount > c.max_amount) :
    (authorize st (mkAuthReq (tokenOfConsent c issuedAt) act tx) now code).1 =
      { decision := sDENY
        reason := some rAmountExceeded } := by
  have hne : ¬ c.expires_at ≤ now := not_le.mpr hexp
  simp only [authorize, mkAuthReq, verify_token, tokenOfConsent, create_delegation_token,
    payloadOfToken, amountExceeds]
  simp [hne, hamt]

/-- Witness for `authorize_denies_amount_exceeded`: a 150 USD transaction
against the live consent's 100 USD limit at instant 10. -/
theorem authorize_denies_amount_exceeded_witness :
    (authorize stWithConsents (mkAuthReq (tokenOfConsent consentLive 0) sPayment tx150)
        10 "authz_w3").1 =
      { decision := sDENY
        reason := some rAmountExceeded } :=
  authorize_denies_amount_exceeded stWithConsents consentLive tx150
    sPayment 10 0 "authz_w3" (by decide) (by decide)

/-- C2 counterexample: with an expired token (consent expiry 1000,
evaluation instant 2000) and an amount above the limit, `authorize`
returns reason `token_expired`, not `amount_exceeded` — the claim as
universally stated fails on expired tokens. -/
theorem authorize_expired_token_not_amount_exceeded :
    (150 : ℚ) > consentLive.max_amount ∧
    (authorize stWithConsents (mkAuthReq (tokenOfConsent consentLive 0) sPayment tx150)
        2000 "authz_w4").1 =
      { decision := sDENY
        reason := some rTokenExpired } := by
  decide

/-- C8 counterexample: with historical average 20 and amount 130 (a
6.5-fold spike) and every other signal benign, the amount-spike rule does
return BLOCK, but the aggregate risk score is exactly 30 (the rule's
weight), which is below the decline threshold 50, and the recommendation
is `verify`, not `decline`. -/
theorem velocity_spike_aggregate_is_30 :
    check_amount_spike 130 (some 20) = VelocityRuleResult.block ∧
    (check_velocity vsAvg20 130 "merch_new" none none 12).risk_score = 30 ∧
    ¬ (check_velocity vsAvg20 130 "merch_new" none none 12).risk_score ≥ 50 ∧
    (check_velocity vsAvg20 130 "merch_new" none none 12).recommendation = recVerify ∧
    recVerify ≠ recDecline := by
  refine ⟨?_, ?_, ?_, ?_, by decide⟩ <;>
  norm_num [check_velocity, check_amount_spike, check_frequency,
    check_new_merchant_high_value, check_geographic_anomaly, check_time_anomaly,
    aggregateScore, firstBlockingRule, ruleScore, vsAvg20, suspiciousHours,
    optTruthy, recVerify, recDecline, List.foldl]

/-- C8 (amended): a transaction at six or more times a (positive)
historical average makes the amount-spike rule return BLOCK and contribute
its full weight 30; when each of the other four rules passes, the
aggregate risk score is exactly 30, so the recommendation is `verify`
(step-up review, still allowed), not `decline` — the decline threshold 50
is reached only if further rules fire. -/
theorem velocity_spike_block_weight30 (vs : VelocityState) (amount : ℚ)
    (merchant_id : String) (location ip : Option String) (hour : ℕ) (avg : ℚ)
    (havg : vs.historical_avg = some avg)
    (hpos : 0 < avg)
    (hspike : amount / avg ≥ 6)
    (hfreq : check_frequency vs.recent_txn_count = VelocityRuleResult.pass)
    (hnm : check_new_merchant_high_value vs.known_merchants merchant_id amount =
      VelocityRuleResult.pass)
    (hgeo : check_geographic_anomaly location ip vs.last_location_country
      vs.time_since_last = VelocityRuleResult.pass)
    (htime : check_time_anomaly hour vs.typical_hours = VelocityRuleResult.pass) :
    check_amount_spike amount vs.historical_avg = VelocityRuleResult.block ∧
    (check_velocity vs amount merchant_id location ip hour).risk_score = 30 ∧
    (check_velocity vs amount merchant_id location ip hour).recommendation = recVerify ∧
    (check_velocity vs amount merchant_id location ip hour).allowed = true := by
  have hblock : check_amount_spike amount vs.historical_avg = VelocityRuleResult.block := by
    rw [havg]
    simp only [check_amount_spike, if_neg (ne_of_gt hpos), if_pos hspike]
  refine ⟨hblock, ?_⟩
  simp only [check_velocity, hblock, hfreq, hnm, hgeo, htime, aggregateScore,
    ruleScore, firstBlockingRule, List.foldl]
  norm_num

/-- Witness for `velocity_spike_block_weight30`: the scenario of the claim,
average 20 and amount 130, benign other signals. -/
theorem velocity_spike_block_weight30_witness :
    vsAvg20.historical_avg = some 20 ∧ ((130 : ℚ) / 20 ≥ 6) ∧
    check_amount_spike 130 vsAvg20.historical_avg = VelocityRuleResult.block ∧
    (check_velocity vsAvg20 130 "merch_new" none none 12).risk_score = 30 ∧
    (check_velocity vsAvg20 130 "merch_new" none none 12).recommendation = recVerify ∧
    (check_velocity vsAvg20 130 "merch_new" none none 12).allowed = true := by
  have h := velocity_spike_block_weight30 vsAvg20 130 "merch_new" none none 12 20
    (by decide) (by norm_num) (by norm_num) (by decide) (by decide) (by decide)
    (by decide)
  exact ⟨by decide, by norm_num, h.1, h.2.1, h.2.2.1, h.2.2.2⟩

/-- C4: the authorize pipeline never consults the velocity engine.  For a
user whose velocity state yields risk score 55 with recommendation
`decline` (amount-spike BLOCK and frequency BLOCK) on exactly the
transaction being authorized, `authorize` still returns ALLOW — its result
does not depend on any velocity input, and no `velocity_blocked` or
STEP_UP outcome is produced anywhere in the pipeline. -/
theorem authorize_ignores_velocity :
    (check_velocity vsHighRisk tx65.amount "m_1" none none 12).risk_score = 55 ∧
    (check_velocity vsHighRisk tx65.amount "m_1" none none 12).recommendation = recDecline ∧
    (check_velocity vsHighRisk tx65.amount "m_1" none none 12).allowed = false ∧
    (authorize stWithConsents (mkAuthReq (tokenOfConsent consentLive 0) sPayment tx65)
        10 "authz_w5").1.decision = sALLOW ∧
    (authorize stWithConsents (mkAuthReq (tokenOfConsent consentLive 0) sPayment tx65)
        10 "authz_w5").1.reason = none := by
  refine ⟨?_, ?_, ?_, by decide, by decide⟩ <;>
    norm_num [check_velocity, check_amount_spike, check_frequency,
      check_new_merchant_high_value, check_geographic_anomaly, check_time_anomaly,
      aggregateScore, firstBlockingRule, ruleScore, vsHighRisk, vsAvg20, tx65,
      suspiciousHours, optTruthy, recDecline, List.foldl]

/-- Helper: a gap larger than the tolerance on one side bounds the
absolute difference from below. -/
theorem abs_sub_gt_of_add_lt {a b tol : ℚ} (h : a + tol < b) : |a - b| > tol := by
  have h1 : tol < -(a - b) := by linarith
  exact lt_of_lt_of_le h1 (neg_le_abs (a - b))

/-- Helper: marking the first cache binding of `code` used is what a
subsequent lookup of `code` sees. -/
theorem lookup_markCacheUsed (l : List (String × AuthRecord)) (code : String)
    (now : Int) (r : AuthRecord) (h : l.lookup code = some r) :
    (markCacheUsed l code now).lookup code =
      some { r with is_used := true, used_at := some now } := by
  induction l with
  | nil => simp [List.lookup] at h
  | cons hd tl ih =>
    obtain ⟨k, v⟩ := hd
    by_cases hk : code = k
    · subst hk
      simp [List.lookup] at h
      simp [markCacheUsed, List.lookup, h]
    · have hk' : (code == k) = false := by simp [hk]
      simp [List.lookup, hk'] at h
      simp [markCacheUsed, List.lookup, Ne.symm hk, hk', ih h]

/-- Helper: marking the first durable row with `code` used is what a
subsequent `lookupAuthDb` of `code` sees. -/
theorem lookupAuthDb_markDbUsed (l : List Authorization) (code : String)
    (now : Int) (merchant : Option String) (a : Authorization)
    (h : lookupAuthDb l code = some a) :
    lookupAuthDb (markDbUsed l code now merchant) code =
      some { a with is_used := true, used_at := some now, verified_at := some now, verified_by := merchant } := by
  induction l with
  | nil => simp [lookupAuthDb] at h
  | cons hd tl ih =>
    by_cases hk : hd.authorization_code = code
    · simp [lookupAuthDb, hk] at h
      subst h
      simp [markDbUsed, lookupAuthDb, hk]
    · simp [lookupAuthDb, hk] at h
      simp [markDbUsed, lookupAuthDb, hk, ih h]

/-- C3: single use of authorization codes.  A code issued on ALLOW sits in
the in-memory auth cache unused; the first redeem call with a matching
transaction (equal amount and currency, not yet expired, consent on file)
returns `valid = true`, and any second call bearing the same code — with
any transaction, any time, any digest function — returns `valid = false`
with error `authorization_already_used` and leaves the state unchanged:
the unused-to-used transition happens at most once per code. -/
theorem verify_code_single_use
    (hm hm2 : String → String) (fid fid2 : String) (st : SystemState)
    (req req2 : VerifyRequest) (now now2 : Int) (cached : AuthRecord) (consent : Consent)
    (hlook : st.auth_cache.lookup req.authorization_code = some cached)
    (hused : cached.is_used = false)
    (hexp : ¬ cached.expires_at < now)
    (hamt : req.transaction.amount = cached.amount)
    (hcur : req.transaction.currency = cached.currency)
    (hcons : st.consent_db.lookup cached.consent_id = some consent)
    (hcode : req2.authorization_code = req.authorization_code) :
    (verify hm fid st req now).1.valid = true ∧
    (verify hm2 fid2 (verify hm fid st req now).2 req2 now2).1.valid = false ∧
    (verify hm2 fid2 (verify hm fid st req now).2 req2 now2).1.error = some eAlreadyUsed ∧
    (verify hm2 fid2 (verify hm fid st req now).2 req2 now2).2 = (verify hm fid st req now).2 := by
  have hampass : ¬ |cached.amount - req.transaction.amount| > amountTolerance := by
    rw [hamt, sub_self, abs_zero, amountTolerance]
    norm_num
  have hcurpass : ¬ cached.currency ≠ req.transaction.currency := by
    rw [hcur]
    simp
  have ev : (verify hm fid st req now).1.valid = true := by
    simp [verify, hlook, verifyCached, hused, hexp, hampass, hcurpass, hcons]
  have e2 : (verify hm fid st req now).2 =
      { st with auth_cache := markCacheUsed st.auth_cache req.authorization_code now } := by
    simp [verify, hlook, verifyCached, hused, hexp, hampass, hcurpass, hcons]
  have hl2 := lookup_markCacheUsed st.auth_cache req.authorization_code now cached hlook
  refine ⟨ev, ?_, ?_, ?_⟩ <;>
    rw [e2] <;>
    simp [verify, hcode, hl2, verifyCached]

/-- Witness for `verify_code_single_use`: the cached 10 USD authorization,
redeemed twice with the exactly matching transaction at instants 100 and
200. -/
theorem verify_code_single_use_witness :
    stVerify.auth_cache.lookup vreqW.authorization_code = some authRecW ∧
    stVerify.consent_db.lookup authRecW.consent_id = some consentLive ∧
    (verify hmId fidW stVerify vreqW 100).1.valid = true ∧
    (verify hmId fidW (verify hmId fidW stVerify vreqW 100).2 vreqW 200).1.valid = false ∧
    (verify hmId fidW (verify hmId fidW stVerify vreqW 100).2 vreqW 200).1.error = some eAlreadyUsed ∧
    (verify hmId fidW (verify hmId fidW stVerify vreqW 100).2 vreqW 200).2 =
      (verify hmId fidW stVerify vreqW 100).2 := by
  have h := verify_code_single_use hmId hmId fidW fidW stVerify vreqW vreqW 100 200
    authRecW consentLive (by decide) (by decide) (by decide) (by decide) (by decide)
    (by decide) (by decide)
  exact ⟨by decide, by decide, h.1, h.2.1, h.2.2.1, h.2.2.2⟩

/-- C9 (amended): the redeem checks reject on `amount_mismatch` exactly
when the stored and requested amounts differ by more than the 0.01
tolerance (not on any difference), and on `currency_mismatch` when the
currencies differ (required exactly), on both the cache path and the
database path, for unused and unexpired authorizations; mismatch denials
leave the state unchanged. -/
theorem verify_mismatch_errors (hm : String → String) (fid : String)
    (st : SystemState) (req : VerifyRequest) (now : Int) :
    (∀ cached : AuthRecord, st.auth_cache.lookup req.authorization_code = some cached →
      cached.is_used = false → ¬ cached.expires_at < now →
      |cached.amount - req.transaction.amount| > amountTolerance →
      (verify hm fid st req now).1.valid = false ∧
      (verify hm fid st req now).1.error = some eAmountMismatch ∧
      (verify hm fid st req now).2 = st) ∧
    (∀ cached : AuthRecord, st.auth_cache.lookup req.authorization_code = some cached →
      cached.is_used = false → ¬ cached.expires_at < now →
      ¬ |cached.amount - req.transaction.amount| > amountTolerance →
      cached.currency ≠ req.transaction.currency →
      (verify hm fid st req now).1.valid = false ∧
      (verify hm fid st req now).1.error = some eCurrencyMismatch ∧
      (verify hm fid st req now).2 = st) ∧
    (∀ a : Authorization, st.auth_cache.lookup req.authorization_code = none →
      lookupAuthDb st.auth_db req.authorization_code = some a →
      a.is_used = false → ¬ a.expires_at < now →
      |a.amount - req.transaction.amount| > amountTolerance →
      (verify hm fid st req now).1.valid = false ∧
      (verify hm fid st req now).1.error = some eAmountMismatch ∧
      (verify hm fid st req now).2 = st) ∧
    (∀ a : Authorization, st.auth_cache.lookup req.authorization_code = none →
      lookupAuthDb st.auth_db req.authorization_code = some a →
      a.is_used = false → ¬ a.expires_at < now →
      ¬ |a.amount - req.transaction.amount| > amountTolerance →
      a.currency ≠ req.transaction.currency →
      (verify hm fid st req now).1.valid = false ∧
      (verify hm fid st req now).1.error = some eCurrencyMismatch ∧
      (verify hm fid st req now).2 = st) := by
  refine ⟨?_, ?_, ?_, ?_⟩
  · intro cached hlook hused hexp hfar
    simp [verify, hlook, verifyCached, hused, hexp, hfar]
  · intro cached hlook hused hexp hnear hcur
    simp [verify, hlook, verifyCached, hused, hexp, hnear, hcur]
  · intro a hmiss hdb hused hexp hfar
    simp [verify, hmiss, verifyDb, hdb, hused, hexp, hfar]
  · intro a hmiss hdb hused hexp hnear hcur
    simp [verify, hmiss, verifyDb, hdb, hused, hexp, hnear, hcur]

/-- Witness for `verify_mismatch_errors`: redeeming the stored 10 USD
authorization with a 12 USD transaction is rejected with
`amount_mismatch`. -/
theorem verify_mismatch_errors_witness :
    stVerify.auth_cache.lookup vreqFar.authorization_code = some authRecW ∧
    |authRecW.amount - vreqFar.transaction.amount| > amountTolerance ∧
    (verify hmId fidW stVerify vreqFar 100).1.valid = false ∧
    (verify hmId fidW stVerify vreqFar 100).1.error = some eAmountMismatch := by
  have hfar : |authRecW.amount - vreqFar.transaction.amount| > amountTolerance := by
    show |(10 : ℚ) - 12| > 1 / 100
    exact abs_sub_gt_of_add_lt (by norm_num)
  have h := ((verify_mismatch_errors hmId fidW stVerify vreqFar 100).1 authRecW
    (by decide) (by decide) (by decide) hfar)
  exact ⟨by decide, hfar, h.1, h.2.1⟩

/-- C9 counterexample: the claim's "exact match required" fails — a redeem
request whose amount differs from the stored amount by 0.005 (stored 10,
requested 10.005) is accepted with `valid = true` and no error, because
the code compares `abs(stored - requested) > 0.01`. -/
theorem verify_within_tolerance_accepted :
    authRecW.amount ≠ vreqNear.transaction.amount ∧
    (verify hmId fidW stVerify vreqNear 100).1.valid = true ∧
    (verify hmId fidW stVerify vreqNear 100).1.error = none := by
  have hne : authRecW.amount ≠ vreqNear.transaction.amount := by
    show (10 : ℚ) ≠ 2001 / 200
    norm_num
  have hpass : ¬ |authRecW.amount - vreqNear.transaction.amount| > amountTolerance := by
    show ¬ |(10 : ℚ) - 2001 / 200| > 1 / 100
    rw [not_lt, abs_le]
    constructor <;> norm_num
  have hlook : stVerify.auth_cache.lookup vreqNear.authorization_code = some authRecW := by
    decide
  have hcons : stVerify.consent_db.lookup authRecW.consent_id = some consentLive := by
    decide
  refine ⟨hne, ?_, ?_⟩ <;>
    simp [verify, hlook, verifyCached, hpass, hcons,
      (by decide : authRecW.is_used = false),
      (by decide : ¬ authRecW.expires_at < (100 : Int)),
      (by decide : ¬ authRecW.currency ≠ vreqNear.transaction.currency)]

/-- C10: the consent-signature check is permissive.  It returns true when
the signature or public key is missing or empty, when the signature is the
literal `"sdk_generated"`, and for every signature in any format other
than the `"hmac_"` prefix; only `"hmac_"`-prefixed signatures are compared
(code-point-wise, after dropping the five-character prefix) against the
recomputed keyed digest of `consent_id:user_id:public_key`.  Consequently
a redeem that succeeds against a consent bearing the `"sdk_generated"`
signature issues a ConsentProof with `signature_valid = true`. -/
theorem consent_signature_check_permissive (hm : String → String) (cid uid : String) :
    (∀ pk, verifyConsentSignature hm cid uid none pk = true) ∧
    (∀ sig, verifyConsentSignature hm cid uid sig none = true) ∧
    (∀ pk, verifyConsentSignature hm cid uid (some sSdkGenerated) pk = true) ∧
    (∀ s pk, strStartsWith s sHmacTag = false →
      verifyConsentSignature hm cid uid (some s) pk = true) ∧
    (∀ s p, strStartsWith s sHmacTag = true → p ≠ sEmpty →
      verifyConsentSignature hm cid uid (some s) (some p) =
        (strDrop s 5 = hm (sigMessage cid uid p) : Bool)) ∧
    (∀ (fid : String) (st : SystemState) (req : VerifyRequest) (now : Int)
        (cached : AuthRecord) (consent : Consent),
      st.auth_cache.lookup req.authorization_code = some cached →
      cached.is_used = false → ¬ cached.expires_at < now →
      ¬ |cached.amount - req.transaction.amount| > amountTolerance →
      ¬ cached.currency ≠ req.transaction.currency →
      st.consent_db.lookup cached.consent_id = some consent →
      consent.consent_id = cid → consent.user_id = uid →
      consent.signature = some sSdkGenerated →
      Option.map ConsentProof.signature_valid (verify hm fid st req now).1.consent_proof =
        some true) := by
  refine ⟨?_, ?_, ?_, ?_, ?_, ?_⟩
  · intro pk
    cases pk <;> simp [verifyConsentSignature]
  · intro sig
    cases sig <;> simp [verifyConsentSignature]
  · intro pk
    cases pk with
    | none => simp [verifyConsentSignature]
    | some p =>
      by_cases hp : p = sEmpty <;>
        simp [verifyConsentSignature, hp, sSdkGenerated, sEmpty]
  · intro s pk hpre
    cases pk with
    | none => simp [verifyConsentSignature]
    | some p =>
      by_cases hs : s = sEmpty
      · simp [verifyConsentSignature, hs]
      · by_cases hp : p = sEmpty
        · simp [verifyConsentSignature, hp]
        · by_cases hsdk : s = sSdkGenerated <;>
            simp [verifyConsentSignature, hs, hp, hsdk, hpre]
  · intro s p hpre hp
    have hs : s ≠ sEmpty := by
      intro he
      rw [he] at hpre
      simp [strStartsWith, sEmpty, sHmacTag, List.isPrefixOf] at hpre
    have hsdk : s ≠ sSdkGenerated := by
      intro he
      rw [he] at hpre
      simp [strStartsWith, sSdkGenerated, sHmacTag, List.isPrefixOf] at hpre
    simp [verifyConsentSignature, hs, hp, hsdk, hpre]
  · intro fid st req now cached consent hlook hused hexp hnear hcur hcons hcid huid hsig
    have hsv : verifyConsentSignature hm consent.consent_id consent.user_id
        consent.signature consent.public_key = true := by
      rw [hsig]
      cases hpk : consent.public_key with
      | none => simp [verifyConsentSignature]
      | some p =>
        by_cases hp : p = sEmpty <;>
          simp [verifyConsentSignature, hp, sSdkGenerated, sEmpty]
    simp [verify, hlook, verifyCached, hused, hexp, hnear, hcur, hcons, hsv]

/-- Witness for `consent_signature_check_permissive`: concrete checks for
a missing signature, the `"sdk_generated"` literal, an Ed25519-style
signature, a matching and a non-matching HMAC signature under the identity
digest stand-in, and an end-to-end redeem against the live consent. -/
theorem consent_signature_check_permissive_witness :
    verifyConsentSignature hmId "cons_live" "user_1" none (some "pk_1") = true ∧
    verifyConsentSignature hmId "cons_live" "user_1" (some sSdkGenerated) (some "pk_1") = true ∧
    strStartsWith sigOther sHmacTag = false ∧
    verifyConsentSignature hmId "cons_live" "user_1" (some sigOther) (some "pk_1") = true ∧
    strStartsWith sigHmacW sHmacTag = true ∧
    verifyConsentSignature hmId "cons_live" "user_1" (some sigHmacW) (some "pk_1") = true ∧
    Option.map ConsentProof.signature_valid
      (verify hmId fidW stVerify vreqW 100).1.consent_proof = some true := by
  obtain ⟨h1, h2, h3, h4, h5, h6⟩ :=
    consent_signature_check_permissive hmId "cons_live" "user_1"
  refine ⟨h1 (some "pk_1"), h3 (some "pk_1"), by decide,
    h4 sigOther (some "pk_1") (by decide), by decide, ?_, ?_⟩
  · rw [h5 sigHmacW "pk_1" (by decide) (by decide)]
    decide
  · refine h6 fidW stVerify vreqW 100 authRecW consentLive (by decide) (by decide)
      (by decide) ?_ (by decide) (by decide) (by decide) (by decide) (by decide)
    show ¬ |(10 : ℚ) - 10| > amountTolerance
    rw [sub_self, abs_zero, amountTolerance]
    norm_num

/-- C7: idempotent replay.  For a mutating request to an idempotent
endpoint carrying a fresh valid key, the first dispatch runs the handler
and — the response being 2xx — caches it; a second dispatch of the same
request returns the identical status and body from the cache, is marked
with the replay indicator, does not run the handler, and changes nothing:
the underlying side effect happens exactly once for the key. -/
theorem idempotency_replay_once {σ β : Type} (handler : σ → HttpRequest → (ℕ × β) × σ)
    (st : MwState σ β) (req : HttpRequest) (key : String) (s : ℕ) (b : β) (inner2 : σ)
    (hmeth : req.method = "POST" ∨ req.method = "PUT")
    (hpath : (idempotentEndpoints.any fun e => strStartsWith req.path e) = true)
    (hkey : req.idempotency_key = some key)
    (hval : validate_idempotency_key key = true)
    (hmiss : st.idem_cache.lookup (makeCacheKey req key) = none)
    (hlock : ¬ makeCacheKey req key ∈ st.locks)
    (hh : handler st.inner req = ((s, b), inner2))
    (h2xx : 200 ≤ s ∧ s < 300) :
    (dispatch handler st req).1.status_code = s ∧
    (dispatch handler st req).1.body = MwBody.app b ∧
    (dispatch handler st req).1.replayed = false ∧
    (dispatch handler st req).2.inner = inner2 ∧
    (dispatch handler (dispatch handler st req).2 req).1.status_code = s ∧
    (dispatch handler (dispatch handler st req).2 req).1.body = MwBody.app b ∧
    (dispatch handler (dispatch handler st req).2 req).1.replayed = true ∧
    (dispatch handler (dispatch handler st req).2 req).2 = (dispatch handler st req).2 := by
  have e1 : dispatch handler st req =
      ({ status_code := s, body := MwBody.app b, replayed := false },
       { st with
         idem_cache := (makeCacheKey req key, { status_code := s, body := b }) :: st.idem_cache
         inner := inner2 }) := by
    simp [dispatch, hmeth, hpath, hkey, hval, hmiss, hlock, hh, h2xx]
  rw [e1]
  refine ⟨rfl, rfl, rfl, rfl, ?_, ?_, ?_, ?_⟩ <;>
    simp [dispatch, hmeth, hpath, hkey, hval, List.lookup]

/-- Witness for `idempotency_replay_once`: the counting handler runs once;
the second dispatch replays `(200, 7)` and leaves the counter at 1. -/
theorem idempotency_replay_once_witness :
    validate_idempotency_key keyW = true ∧
    mwStateW.idem_cache.lookup (makeCacheKey httpReqW keyW) = none ∧
    (dispatch handlerW mwStateW httpReqW).1.status_code = 200 ∧
    (dispatch handlerW mwStateW httpReqW).1.body = MwBody.app 7 ∧
    (dispatch handlerW mwStateW httpReqW).2.inner = 1 ∧
    (dispatch handlerW (dispatch handlerW mwStateW httpReqW).2 httpReqW).1.status_code = 200 ∧
    (dispatch handlerW (dispatch handlerW mwStateW httpReqW).2 httpReqW).1.body = MwBody.app 7 ∧
    (dispatch handlerW (dispatch handlerW mwStateW httpReqW).2 httpReqW).1.replayed = true ∧
    (dispatch handlerW (dispatch handlerW mwStateW httpReqW).2 httpReqW).2 =
      (dispatch handlerW mwStateW httpReqW).2 := by
  have h := idempotency_replay_once handlerW mwStateW httpReqW keyW 200 7 1
    (by decide) (by decide) (by decide) (by decide) (by decide) (by decide)
    (by decide) (by decide)
  exact ⟨by decide, by decide, h.1, h.2.1, h.2.2.2.1, h.2.2.2.2.1, h.2.2.2.2.2.1,
    h.2.2.2.2.2.2.1, h.2.2.2.2.2.2.2⟩

/-- Helper: the chain check distributes over append. -/
theorem chainErrors_append (prev : AuditHash) (l1 l2 : List AuditEntry) :
    chainErrors prev (l1 ++ l2) =
      chainErrors prev l1 ++ chainErrors (chainEnd prev l1) l2 := by
  induction l1 generalizing prev with
  | nil => simp [chainErrors, chainEnd]
  | cons e es ih => simp [chainErrors, chainEnd, ih, List.append_assoc]

/-- Helper: the chain tail distributes over append. -/
theorem chainEnd_append (prev : AuditHash) (l1 l2 : List AuditEntry) :
    chainEnd prev (l1 ++ l2) = chainEnd (chainEnd prev l1) l2 := by
  induction l1 generalizing prev with
  | nil => simp [chainEnd]
  | cons e es ih => simp [chainEnd, ih]

/-- Helper: an error-free cons means the head links to `prev` and the tail
is error-free from the head's stored hash. -/
theorem chainErrors_eq_nil (prev : AuditHash) (e : AuditEntry) (rest : List AuditEntry) :
    chainErrors prev (e :: rest) = [] ↔
      e.previous_hash = prev ∧ chainErrors e.record_hash rest = [] := by
  by_cases h : e.previous_hash = prev <;> simp [chainErrors, h]

/-- Helper: `log` preserves the audit invariant. -/
theorem auditInv_log (st : AuditState) (i : LogInput) (h : auditInv st) :
    auditInv (log st i).2 := by
  obtain ⟨h1, h2, h3⟩ := h
  refine ⟨?_, ?_, ?_⟩
  · show chainErrors AuditHash.genesis (st.store ++ [mkAuditEntry st.last_hash i]) = []
    rw [chainErrors_append, h1]
    simp [chainErrors, mkAuditEntry, ← h2]
  · show (mkAuditEntry st.last_hash i).record_hash =
      chainEnd AuditHash.genesis (st.store ++ [mkAuditEntry st.last_hash i])
    rw [chainEnd_append]
    simp [chainEnd]
  · intro e he
    simp only [log, List.mem_append, List.mem_singleton] at he
    rcases he with he | he
    · exact h3 e he
    · subst he
      simp [mkAuditEntry, compute_hash]

/-- Helper: every state reached by a sequence of `log` calls from an
invariant state is invariant. -/
theorem auditInv_runLog (l : List LogInput) (st : AuditState) (h : auditInv st) :
    auditInv (runLog st l) := by
  induction l generalizing st with
  | nil => exact h
  | cons i rest ih => exact ih (log st i).2 (auditInv_log st i h)

/-- Helper: the store built by `runLog`, projected through any function of
the fields `log` copies from its input. -/
theorem runLog_store_map {γ : Type} (f : AuditEntry → γ) (g : LogInput → γ)
    (hfg : ∀ last i, f (mkAuditEntry last i) = g i) (l : List LogInput) (st : AuditState) :
    (runLog st l).store.map f = st.store.map f ++ l.map g := by
  induction l generalizing st with
  | nil => simp [runLog]
  | cons i rest ih =>
    rw [runLog, ih]
    simp [log, hfg]

/-- Helper: a list sorted by timestamp is a fixed point of the sort. -/
theorem sortByTimestamp_of_sorted (l : List AuditEntry)
    (h : List.Chain' (fun a b => a.timestamp ≤ b.timestamp) l) :
    sortByTimestamp l = l := by
  induction l with
  | nil => rfl
  | cons x xs ih =>
    cases xs with
    | nil => rfl
    | cons y ys =>
      have hxy : x.timestamp ≤ y.timestamp := (List.chain'_cons.mp h).1
      have h' := (List.chain'_cons.mp h).2
      rw [sortByTimestamp, ih h']
      simp [insertByTimestamp, hxy]

/-- Helper: filtering on the tenant of a single-tenant store is the
identity. -/
theorem filter_dev_eq_self (l : List AuditEntry) (d : String)
    (h : ∀ e ∈ l, e.developer_id = d) :
    (l.filter fun e => e.developer_id == d) = l := by
  induction l with
  | nil => rfl
  | cons e rest ih =>
    have he : e.developer_id = d := h e (by simp)
    simp [List.filter, he, ih fun x hx => h x (by simp [hx])]

/-- Helper: transport a pointwise constant along equal projections. -/
theorem forall_of_map_eq {α β γ : Type} (f : α → γ) (g : β → γ) {l : List α}
    {l2 : List β} (h : l.map f = l2.map g) (c : γ) (hall : ∀ x ∈ l2, g x = c) :
    ∀ a ∈ l, f a = c := by
  intro a ha
  have hm : f a ∈ l.map f := List.mem_map_of_mem f ha
  rw [h] at hm
  obtain ⟨b, hb, hbe⟩ := List.mem_map.mp hm
  rw [← hbe]
  exact hall b hb

/-- Helper: mutating `details` in place changes no projection that ignores
the details field. -/
theorem setDetailsAt_map {γ : Type} (f : AuditEntry → γ)
    (hf : ∀ (e : AuditEntry) (d : List (String × String)), f { e with details := d } = f e)
    (l : List AuditEntry) (i : ℕ) (d : List (String × String)) :
    (setDetailsAt l i d).map f = l.map f := by
  induction l generalizing i with
  | nil => rfl
  | cons e rest ih =>
    cases i with
    | zero => simp [setDetailsAt, hf]
    | succ n => simp [setDetailsAt, ih]

/-- Helper: mutating `details` and recomputing the record hash changes no
projection that ignores both fields. -/
theorem setDetailsRecomputeAt_map {γ : Type} (f : AuditEntry → γ)
    (hf : ∀ (e : AuditEntry) (d : List (String × String)),
      f { e with details := d, record_hash := compute_hash { e with details := d } } = f e)
    (l : List AuditEntry) (i : ℕ) (d : List (String × String)) :
    (setDetailsRecomputeAt l i d).map f = l.map f := by
  induction l generalizing i with
  | nil => rfl
  | cons e rest ih =>
    cases i with
    | zero => simp [setDetailsRecomputeAt, hf]
    | succ n => simp [setDetailsRecomputeAt, ih]

/-- Helper: the chain check reads only `event_id`, the two hash fields and
order, so an in-place details mutation is invisible to it. -/
theorem chainErrors_setDetailsAt (l : List AuditEntry) (i : ℕ)
    (d : List (String × String)) (prev : AuditHash) :
    chainErrors prev (setDetailsAt l i d) = chainErrors prev l := by
  induction l generalizing i prev with
  | nil => rfl
  | cons e rest ih =>
    cases i with
    | zero => simp [setDetailsAt, chainErrors]
    | succ n => simp [setDetailsAt, chainErrors, ih]

/-- Helper: on a single-tenant, timestamp-sorted store of at most 1000
entries, `verify_integrity` reduces to the plain chain walk over the
store. -/
theorem verify_integrity_store (st : AuditState) (d : String)
    (hall : ∀ e ∈ st.store, e.developer_id = d)
    (hsort : List.Chain' (· ≤ ·) (st.store.map AuditEntry.timestamp))
    (hlen : st.store.length ≤ 1000) :
    verify_integrity st d =
      (if st.store = [] then { valid := true, entries_checked := 0, errors := [] }
       else { valid := (chainErrors AuditHash.genesis st.store).isEmpty
              entries_checked := st.store.length
              errors := chainErrors AuditHash.genesis st.store }) := by
  have hfil : (st.store.filter fun e => e.developer_id == d) = st.store :=
    filter_dev_eq_self _ _ hall
  have hchain : List.Chain' (fun a b : AuditEntry => a.timestamp ≤ b.timestamp) st.store :=
    (List.chain'_map _).mp hsort
  have hsorteq : sortByTimestamp st.store = st.store := sortByTimestamp_of_sorted _ hchain
  have htake : st.store.take 1000 = st.store := List.take_of_length_le hlen
  simp [verify_integrity, query, hfil, hsorteq, htake]

/-- Helper: recomputing the hash of a mutated entry that has a successor
breaks the link at the successor, which the chain walk reports under the
successor's `event_id`. -/
theorem chainErrors_recompute_break (l : List AuditEntry) (i : ℕ) (prev : AuditHash)
    (d : List (String × String))
    (hchain : chainErrors prev l = [])
    (hhash : ∀ e ∈ l, e.record_hash = compute_hash e)
    (hi : i + 1 < l.length)
    (hne : d ≠ (l.get ⟨i, by omega⟩).details) :
    (∃ err ∈ chainErrors prev (setDetailsRecomputeAt l i d),
        err.event_id = (l.get ⟨i + 1, hi⟩).event_id) ∧
    chainErrors prev (setDetailsRecomputeAt l i d) ≠ [] := by
  induction l generalizing i prev with
  | nil => simp at hi
  | cons e rest ih =>
    have hc := (chainErrors_eq_nil prev e rest).mp hchain
    cases i with
    | zero =>
      cases rest with
      | nil => simp at hi
      | cons f l2 =>
        have hcf := (chainErrors_eq_nil e.record_hash f l2).mp hc.2
        have hrec : e.record_hash = compute_hash e := hhash e (by simp)
        have hne0 : d ≠ e.details := by simpa using hne
        have hneq : f.previous_hash ≠ AuditHash.digest e.event_id e.event_type
            e.timestamp e.actor_id e.resource_id e.action e.outcome d prev := by
          rw [hcf.1, hrec]
          simp only [compute_hash, hc.1]
          intro hcontra
          injection hcontra with h1 h2 h3 h4 h5 h6 h7 h8 h9
          exact hne0 h8.symm
        constructor
        · refine ⟨{ event_id := f.event_id
                    expected := AuditHash.digest e.event_id e.event_type e.timestamp
                      e.actor_id e.resource_id e.action e.outcome d prev
                    found := f.previous_hash }, ?_, by simp⟩
          simp [setDetailsRecomputeAt, chainErrors, compute_hash, hc.1, hneq]
        · simp [setDetailsRecomputeAt, chainErrors, compute_hash, hc.1, hneq]
    | succ n =>
      have hi' : n + 1 < rest.length := by simpa using hi
      have hne' : d ≠ (rest.get ⟨n, Nat.lt_of_succ_lt hi'⟩).details := by simpa using hne
      have ihh := ih n e.record_hash hc.2 (fun x hx => hhash x (by simp [hx])) hi' hne'
      constructor
      · obtain ⟨err, herr, hid⟩ := ihh.1
        exact ⟨err, by simp [setDetailsRecomputeAt, chainErrors, hc.1, herr], by simpa using hid⟩
      · intro hcontra
        apply ihh.2
        have : chainErrors prev (e :: setDetailsRecomputeAt rest n d) = [] := by
          simpa [setDetailsRecomputeAt] using hcontra
        exact ((chainErrors_eq_nil _ _ _).mp this).2

/-- C5 (amended): audit-chain integrity on a single-tenant log (appended
with nondecreasing timestamps, within the 1000-entry scan limit of
`verify_integrity`).  (a) An untampered log verifies.  (b) Mutating a
stored entry's `details` in place is NOT detected — `verify_integrity`
only checks the `previous_hash` linkage and never recomputes entry hashes,
so it still returns `valid = true`.  (c) If the mutated entry's
`record_hash` is also recomputed (the spec's tampering scenario) and the
entry has a successor, the break is reported — under the successor's
`event_id`, not the mutated entry's. -/
theorem audit_integrity_semantics (inputs : List LogInput) (d : String) (i : ℕ)
    (newD : List (String × String))
    (hd : ∀ x ∈ inputs, x.developer_id = d)
    (hts : List.Chain' (· ≤ ·) (inputs.map LogInput.timestamp))
    (hlen : inputs.length ≤ 1000) :
    (verify_integrity (runLog initAuditState inputs) d).valid = true ∧
    (verify_integrity (mutateDetails (runLog initAuditState inputs) i newD) d).valid = true ∧
    (∀ hi : i + 1 < (runLog initAuditState inputs).store.length,
      newD ≠ ((runLog initAuditState inputs).store.get ⟨i, by omega⟩).details →
      (verify_integrity (mutateDetailsRecompute (runLog initAuditState inputs) i newD)
          d).valid = false ∧
      ∃ err ∈ (verify_integrity (mutateDetailsRecompute (runLog initAuditState inputs) i newD)
          d).errors,
        err.event_id = ((runLog initAuditState inputs).store.get ⟨i + 1, hi⟩).event_id) := by
  obtain ⟨hch, hlast, hhash⟩ :=
    auditInv_runLog inputs initAuditState ⟨rfl, rfl, by simp [initAuditState]⟩
  have hdev : (runLog initAuditState inputs).store.map AuditEntry.developer_id =
      inputs.map LogInput.developer_id := by
    simpa [initAuditState] using
      runLog_store_map AuditEntry.developer_id LogInput.developer_id
        (fun last i => rfl) inputs initAuditState
  have htsm : (runLog initAuditState inputs).store.map AuditEntry.timestamp =
      inputs.map LogInput.timestamp := by
    simpa [initAuditState] using
      runLog_store_map AuditEntry.timestamp LogInput.timestamp
        (fun last i => rfl) inputs initAuditState
  have hall : ∀ e ∈ (runLog initAuditState inputs).store, e.developer_id = d :=
    forall_of_map_eq _ _ hdev d hd
  have hsortst : List.Chain' (· ≤ ·)
      ((runLog initAuditState inputs).store.map AuditEntry.timestamp) := by
    rw [htsm]; exact hts
  have hlenmap : (runLog initAuditState inputs).store.length = inputs.length := by
    have := congrArg List.length htsm
    simpa using this
  have hlenst : (runLog initAuditState inputs).store.length ≤ 1000 := by omega
  refine ⟨?_, ?_, ?_⟩
  · rw [verify_integrity_store _ d hall hsortst hlenst]
    by_cases hnil : (runLog initAuditState inputs).store = [] <;> simp [hnil, hch]
  · have hmapd : (setDetailsAt (runLog initAuditState inputs).store i newD).map
        AuditEntry.developer_id =
        (runLog initAuditState inputs).store.map AuditEntry.developer_id :=
      setDetailsAt_map AuditEntry.developer_id (fun e d' => rfl) _ _ _
    have hmapt : (setDetailsAt (runLog initAuditState inputs).store i newD).map
        AuditEntry.timestamp =
        (runLog initAuditState inputs).store.map AuditEntry.timestamp :=
      setDetailsAt_map AuditEntry.timestamp (fun e d' => rfl) _ _ _
    have hall' : ∀ e ∈ (mutateDetails (runLog initAuditState inputs) i newD).store,
        e.developer_id = d :=
      forall_of_map_eq _ _ (hmapd.trans hdev) d hd
    have hsort' : List.Chain' (· ≤ ·)
        ((mutateDetails (runLog initAuditState inputs) i newD).store.map
          AuditEntry.timestamp) := by
      show List.Chain' (· ≤ ·)
        ((setDetailsAt (runLog initAuditState inputs).store i newD).map AuditEntry.timestamp)
      rw [hmapt, htsm]; exact hts
    have hlen' : (mutateDetails (runLog initAuditState inputs) i newD).store.length ≤ 1000 := by
      show (setDetailsAt (runLog initAuditState inputs).store i newD).length ≤ 1000
      have h1 : (setDetailsAt (runLog initAuditState inputs).store i newD).length =
          (runLog initAuditState inputs).store.length := by
        have := congrArg List.length hmapt
        simpa using this
      omega
    rw [verify_integrity_store _ d hall' hsort' hlen']
    simp only [mutateDetails, chainErrors_setDetailsAt, hch, List.isEmpty_nil]
    split <;> rfl
  · intro hi hne
    have hbrk := chainErrors_recompute_break (runLog initAuditState inputs).store i
      AuditHash.genesis newD hch hhash hi hne
    have hmapd : (setDetailsRecomputeAt (runLog initAuditState inputs).store i newD).map
        AuditEntry.developer_id =
        (runLog initAuditState inputs).store.map AuditEntry.developer_id :=
      setDetailsRecomputeAt_map AuditEntry.developer_id (fun e d' => rfl) _ _ _
    have hmapt : (setDetailsRecomputeAt (runLog initAuditState inputs).store i newD).map
        AuditEntry.timestamp =
        (runLog initAuditState inputs).store.map AuditEntry.timestamp :=
      setDetailsRecomputeAt_map AuditEntry.timestamp (fun e d' => rfl) _ _ _
    have hall' : ∀ e ∈ (mutateDetailsRecompute (runLog initAuditState inputs) i newD).store,
        e.developer_id = d :=
      forall_of_map_eq _ _ (hmapd.trans hdev) d hd
    have hsort' : List.Chain' (· ≤ ·)
        ((mutateDetailsRecompute (runLog initAuditState inputs) i newD).store.map
          AuditEntry.timestamp) := by
      show List.Chain' (· ≤ ·)
        ((setDetailsRecomputeAt (runLog initAuditState inputs).store i newD).map
          AuditEntry.timestamp)
      rw [hmapt, htsm]; exact hts
    have hlenmut : (setDetailsRecomputeAt (runLog initAuditState inputs).store i newD).length =
        (runLog initAuditState inputs).store.length := by
      have := congrArg List.length hmapt
      simpa using this
    have hlen' : (mutateDetailsRecompute (runLog initAuditState inputs) i newD).store.length ≤
        1000 := by
      show (setDetailsRecomputeAt (runLog initAuditState inputs).store i newD).length ≤ 1000
      omega
    have hnonnil : (mutateDetailsRecompute (runLog initAuditState inputs) i newD).store ≠ [] := by
      show setDetailsRecomputeAt (runLog initAuditState inputs).store i newD ≠ []
      intro hcontra
      rw [hcontra] at hlenmut
      simp at hlenmut
      omega
    rw [verify_integrity_store _ d hall' hsort' hlen']
    simp only [hnonnil, if_neg]
    constructor
    · cases herrs : chainErrors AuditHash.genesis
          (mutateDetailsRecompute (runLog initAuditState inputs) i newD).store with
      | nil => exact absurd herrs hbrk.2
      | cons a as => simp
    · exact hbrk.1

/-- Witness for `audit_integrity_semantics`: a two-entry `devA` log; the
untampered log verifies, an in-place details mutation of the first entry
goes undetected, and mutating plus recomputing reports the break under the
second entry's id `ev3`. -/
theorem audit_integrity_semantics_witness :
    (verify_integrity stAuditD "devA").valid = true ∧
    (verify_integrity (mutateDetails stAuditD 0 dTampered) "devA").valid = true ∧
    (verify_integrity (mutateDetailsRecompute stAuditD 0 dTampered) "devA").valid = false ∧
    ∃ err ∈ (verify_integrity (mutateDetailsRecompute stAuditD 0 dTampered) "devA").errors,
      err.event_id = "ev3" := by
  have h := audit_integrity_semantics [logA1, logA3] "devA" 0 dTampered
    (by decide) (by norm_num [logA1, logA3, List.chain'_cons, List.chain'_singleton])
    (by decide)
  have hc := h.2.2 (by decide) (by decide)
  refine ⟨h.1, h.2.1, hc.1, ?_⟩
  obtain ⟨err, hm, hid⟩ := hc.2
  refine ⟨err, hm, ?_⟩
  rw [hid]
  decide

/-- C5 counterexample: the claim as stated fails — mutating the stored
first entry's `details` (without touching its hashes, exactly what "the
details field of any one stored entry is mutated after appending" does to
the store) leaves `verify_integrity` reporting `valid = true` with no
errors, because the chain walk never recomputes entry hashes. -/
theorem audit_details_mutation_undetected :
    (mutateDetails stAuditD 0 dTampered).store.map AuditEntry.details ≠
      stAuditD.store.map AuditEntry.details ∧
    (verify_integrity (mutateDetails stAuditD 0 dTampered) "devA").valid = true ∧
    (verify_integrity (mutateDetails stAuditD 0 dTampered) "devA").errors = [] := by
  decide

/-- C6: the audit chain is global, not per tenant.  With appends
interleaved `devA, devB, devA`, the third entry's `previous_hash` is the
`record_hash` of the second entry — which belongs to the other tenant
`devB` — and not that of `devA`'s own previous entry; consequently the
code's own per-tenant `verify_integrity` reports both tenants' untampered
chains as broken. -/
theorem audit_chain_global_not_per_tenant :
    stAudit3.store.map AuditEntry.developer_id = ["devA", "devB", "devA"] ∧
    (stAudit3.store.get? 2).map AuditEntry.previous_hash =
      (stAudit3.store.get? 1).map AuditEntry.record_hash ∧
    (stAudit3.store.get? 2).map AuditEntry.previous_hash ≠
      (stAudit3.store.get? 0).map AuditEntry.record_hash ∧
    (verify_integrity stAudit3 "devA").valid = false ∧
    (verify_integrity stAudit3 "devB").valid = false := by
  decide

end AgentAuth
